import Mathlib

/-!
Verification development for the `ajax` data-retention tool (bin/ajax).

The definitions below are a shallow embedding of the Python source: run
records and their location entries become structures, the Mongo registry
becomes a list of run records, the filesystem becomes the list of existing
paths, and each source function becomes a Lean function over an explicit
state.  Timestamps are integers; the monotone wall clock used for audit
records is a natural-number counter threaded through the state.  Threads
are modelled by a counter of spawned-and-not-yet-joined deletion threads
(the source spawns one daemon thread per shared-tier deletion and joins
them all in `wait_on_delete_thread`).
-/

namespace Ajax

/-- Character-list prefix test (kernel-reducible). -/
def isPrefixChars : List Char → List Char → Bool
  | [], _ => true
  | _ :: _, [] => false
  | a :: as, b :: bs => a == b && isPrefixChars as bs

/-- Character-list substring test (kernel-reducible). -/
def containsChars (pat : List Char) : List Char → Bool
  | [] => pat.isEmpty
  | c :: rest => isPrefixChars pat (c :: rest) || containsChars pat rest

/-- Substring containment, modelling the Python `pat in s` test on strings. -/
def strContains (s pat : String) : Bool :=
  containsChars pat.data s.data

/-- Prefix containment, modelling the Python `s.startswith(pre)` test. -/
def strStarts (s pre : String) : Bool :=
  isPrefixChars pre.data s.data

/-- DataLocationEntry: one element of the rundoc `data` array
(fields `type`, `host`, `location`; `meta` and `protocol` are never read
by the tool and are omitted). -/
structure DDoc where
  dtype : String
  host : String
  location : String
deriving DecidableEq, Repr

/-- DeletionRecord: one element of the rundoc `deleted_data` array, as built
in `delete_data` (the found entry minus `location`/`meta`/`protocol`, plus
`at`, `by` and `reason`). -/
structure DeletedDoc where
  dtype : String
  host : String
  atTime : Nat
  byWho : String
  reason : String
deriving DecidableEq, Repr

/-- RunRecord: one rundoc of the runs database, with the fields the tool
reads (`number`, `bootstrax.state`, `status`, `start`, `bootstrax.time`,
`bootstrax.host`, `data`, `deleted_data`). -/
structure RunDoc where
  number : Nat
  bsState : String
  status : String
  start : Int
  bsTime : Int
  bsHost : String
  data : List DDoc
  deleted_data : List DeletedDoc
deriving DecidableEq, Repr

/-- Command-line flags relevant to the deletion paths, plus the hostname and
a fixed answer used for every interactive confirmation prompt. -/
structure Args where
  production : Bool
  ask_confirm : Bool
  force : Bool
  userYes : Bool
  hostname : String
deriving DecidableEq, Repr

/-- World state: existing filesystem paths, the runs registry, the audit
clock, the priorities of warnings sent to `log_warning`, and the count plus
high-water mark of spawned deletion threads not yet joined. -/
structure DState where
  fs : List String
  reg : List RunDoc
  clock : Nat
  warnings : List String
  alive : Nat
  peak : Nat
deriving DecidableEq, Repr

/-- Record a `log_warning` call by its priority. -/
def logWarning (st : DState) (priority : String) : DState :=
  { st with warnings := st.warnings ++ [priority] }

/-- Errors raised by the modelled code paths.  `integrityError`,
`somethingWrong`, `rmtreeMissing` and `uncheckedCall` are all Python
`ValueError`s, distinguished here by raise site. -/
inductive AjaxErr where
  | integrityError
  | somethingWrong
  | rmtreeMissing
  | uncheckedCall
  | nameError
  | typeError
  | fileNotFound
  | notImplemented
deriving DecidableEq, Repr

/-- The `confirm` helper: without `--ask_confirm` it returns True without
prompting; otherwise the (fixed) interactive answer decides. -/
def confirm (args : Args) : Bool :=
  if args.ask_confirm then args.userYes else true

/-- Designated host allowed to clean the shared tier (`eb_can_clean_ceph`). -/
def ebCanCleanCeph : String := "eb0.xenon.local"

/-- The `check_rundoc_for_live_and_raw` helper: counts the `live` and the
`raw_records` entries of a rundoc by a single pass over `data`. -/
def check_rundoc_for_live_and_raw (rd : RunDoc) : Nat × Nat :=
  rd.data.foldl
    (fun acc dd =>
      (acc.1 + (if dd.dtype == "live" then 1 else 0),
       acc.2 + (if dd.dtype == "raw_records" then 1 else 0)))
    (0, 0)

/-- Extra durable copy demanded by the guard when the data type being
deleted is itself a raw type: `int("raw_records" in data_type)`. -/
def durExtra (data_type : String) : Nat :=
  if strContains data_type "raw_records" then 1 else 0

/-- The `_rmtree` wrapper: in production, delete the tree after an optional
confirmation; otherwise only log, and raise ValueError if the path does not
even exist. -/
def rmtreeModel (args : Args) (fs : List String) (path : String) :
    List String × Option AjaxErr :=
  if args.production then
    if confirm args then (fs.filter (fun p => p ≠ path), none) else (fs, none)
  else
    if path ∈ fs then (fs, none) else (fs, some .rmtreeMissing)

/-- Update the first rundoc carrying the given run number (the
`update_one` keyed by the rundoc identity). -/
def update_rundoc (reg : List RunDoc) (num : Nat) (f : RunDoc → RunDoc) :
    List RunDoc :=
  match reg with
  | [] => []
  | r :: rs =>
    if r.number = num then f r :: rs else r :: update_rundoc rs num f

/-- The atomic per-record registry mutation of `delete_data`: `$addToSet`
one deletion record onto `deleted_data` and `$pull` from `data` every entry
whose type equals `data_type` and whose host is `daq` or the local host. -/
def applyPull (data_type hn : String) (recDoc : DeletedDoc) (r : RunDoc) :
    RunDoc :=
  { r with
    data := r.data.filter
      (fun d => !(d.dtype == data_type && (d.host == "daq" || d.host == hn))),
    deleted_data :=
      if recDoc ∈ r.deleted_data then r.deleted_data
      else r.deleted_data ++ [recDoc] }

/-- Condition under which the copy-count guard of `delete_data` fires:
the check is not overridden and we have neither a live copy nor enough
raw copies. -/
def guardFails (rd : RunDoc) (data_type : String)
    (ignore_low_data_check : Bool) : Bool :=
  if ignore_low_data_check then false
  else
    let nlr := check_rundoc_for_live_and_raw rd
    if 1 ≤ nlr.1 ∨ 1 + durExtra data_type ≤ nlr.2 then false else true

/-- The entry-matching condition used both to locate the audited entry and
in the `$pull` filter: same type, host either `daq` or the local host. -/
def ddocMatch (data_type hn : String) (d : DDoc) : Bool :=
  d.dtype == data_type && (d.host == "daq" || d.host == hn)

/-- Physical-removal phase of `delete_data`: when the path exists and this
is not a test, run `_rmtree` on it. -/
def dd_remove_phase (args : Args) (st : DState) (path : String)
    (test : Bool) : DState × Option AjaxErr :=
  if path ∈ st.fs ∧ test = false then
    let r := rmtreeModel args st.fs path
    ({ st with fs := r.1 }, r.2)
  else (st, none)

/-- Rundoc-mutation phase of `delete_data`: if the path is (still) present,
raise unless testing or confirming interactively; otherwise locate the
audited entry (falling back, as the Python for-loop does, to the last
`data` entry when nothing matches, and crashing on an empty `data`), and in
confirmed production apply the atomic pull-and-append update. -/
def dd_rundoc_phase (args : Args) (st : DState) (rd : RunDoc)
    (path data_type : String) (test : Bool) (reason : String) :
    DState × Option AjaxErr :=
  if path ∈ st.fs then
    if test = false ∧ args.ask_confirm = false then
      (st, some .somethingWrong)
    else (st, none)
  else
    match (rd.data.find? (ddocMatch data_type args.hostname)).orElse
        (fun _ => rd.data.getLast?) with
    | none => (st, some .nameError)
    | some d =>
      let recDoc : DeletedDoc :=
        ⟨d.dtype, d.host, st.clock, "ajax." ++ args.hostname, reason⟩
      let st3 := { st with clock := st.clock + 1 }
      if args.production = true ∧ test = false then
        if confirm args then
          ({ st3 with
              reg := update_rundoc st3.reg rd.number
                (applyPull data_type args.hostname recDoc) }, none)
        else (st3, none)
      else (st3, none)

/-- The `delete_data` core: copy-count guard, physical removal, then the
rundoc mutation.  Returns the state reached together with the raised
exception, if any (the state records all mutations made before a raise). -/
def delete_data (args : Args) (st : DState) (rd : RunDoc) (path : String)
    (data_type : String) (test ignore_low_data_check : Bool)
    (reason : String) : DState × Option AjaxErr :=
  let gf := guardFails rd data_type ignore_low_data_check
  let st1 := if gf then logWarning st "fatal" else st
  if gf ∧ test = false then (st1, some .integrityError)
  else
    match dd_remove_phase args st1 path test with
    | (st2, some e) => (st2, some e)
    | (st2, none) => dd_rundoc_phase args st2 rd path data_type test reason

/-- The `threaded_delete_data` wrapper: spawn one daemon deletion thread.
The thread body is `delete_data`; an exception inside it stays in the
thread, so the error is dropped here.  The alive-thread counter and its
high-water mark record how many deletion threads have been started since
the last join. -/
def threaded_delete_data (args : Args) (st : DState) (rd : RunDoc)
    (path data_type : String) (test ignore_low_data_check : Bool)
    (reason : String) : DState :=
  let st1 := { st with alive := st.alive + 1,
                       peak := max st.peak (st.alive + 1) }
  (delete_data args st1 rd path data_type test ignore_low_data_check
    reason).1

/-- The `wait_on_delete_thread` helper: poll every `ajax_delete*` thread
until none is alive, so all spawned deletion threads have completed. -/
def wait_on_delete_thread (st : DState) : DState :=
  { st with alive := 0 }

/-- Decimal digit character (kernel-reducible). -/
def digitChar (n : Nat) : Char :=
  match n with
  | 0 => '0' | 1 => '1' | 2 => '2' | 3 => '3' | 4 => '4'
  | 5 => '5' | 6 => '6' | 7 => '7' | 8 => '8' | _ => '9'

/-- Decimal digits of a number, most significant first, with explicit fuel
(kernel-reducible). -/
def natDigitsAux : Nat → Nat → List Char
  | 0, _ => []
  | fuel + 1, n =>
    if n < 10 then [digitChar n]
    else natDigitsAux fuel (n / 10) ++ [digitChar (n % 10)]

/-- Zero-padded six-digit run id, modelling `"%06d" % number`. -/
def runIdStr (n : Nat) : String :=
  let ds := natDigitsAux (n + 1) n
  String.mk (List.replicate (6 - ds.length) '0' ++ ds)

/-- Per-entry body of the `remove_run_from_host` loop over `rd["data"]`.
Processed-data entries on this host are deleted synchronously (skipped
entirely when deleting live data); `daq`-hosted entries are the live data
and are deleted through a spawned thread, with the raw-records precondition
checks of the source.  A raised exception from a synchronous delete aborts
the remaining iterations. -/
def rrfh_body (args : Args) (rd : RunDoc) (delete_live force : Bool)
    (reason : String) (have_live have_rr : Nat) (st : DState)
    (ddoc : DDoc) : DState × Option AjaxErr :=
  if ddoc.host = args.hostname then
    if delete_live then (st, none)
    else
      if force = false ∧ have_live = 0 ∧
          strContains ddoc.dtype "raw_records" then (st, none)
      else
        let r1 := delete_data args st rd ddoc.location ddoc.dtype
          (!args.production) force reason
        match r1.2 with
        | some e => (r1.1, some e)
        | none =>
          let loc2 := ddoc.location ++ "_temp"
          if loc2 ∈ r1.1.fs then
            delete_data args r1.1 rd loc2 ddoc.dtype
              (!args.production) force reason
          else (r1.1, none)
  else if ddoc.host = "daq" then
    if delete_live = false then (st, none)
    else
      let loc := ddoc.location ++ "/" ++ runIdStr rd.number
      if force = false ∧ have_rr = 0 then (logWarning st "info", none)
      else if force = false then
        (threaded_delete_data args st rd loc ddoc.dtype
          (!args.production) false reason, none)
      else
        (threaded_delete_data args st rd loc ddoc.dtype
          (!args.production) true reason, none)
  else (st, none)

def rrfh_step (args : Args) (rd : RunDoc) (delete_live force : Bool)
    (reason : String) (have_live have_rr : Nat)
    (acc : DState × Option AjaxErr) (ddoc : DDoc) :
    DState × Option AjaxErr :=
  match acc with
  | (st, some e) => (st, some e)
  | (st, none) =>
    rrfh_body args rd delete_live force reason have_live have_rr st ddoc

/-- The `remove_run_from_host` routine: locate the rundoc by number and
host, count the live and raw copies once, then walk its `data` entries. -/
def remove_run_from_host (args : Args) (st : DState) (number : Nat)
    (delete_live force : Bool) (reason : String) :
    DState × Option AjaxErr :=
  match st.reg.find? (fun r =>
      r.number == number &&
      r.data.any (fun d =>
        d.host == (if delete_live then "daq" else args.hostname))) with
  | none => (logWarning st "info", none)
  | some rd =>
    let hl := check_rundoc_for_live_and_raw rd
    rd.data.foldl (rrfh_step args rd delete_live force reason hl.1 hl.2)
      (st, none)

/-- Selection predicate of `clean_ceph`: done, transferred, started more
than a day ago, finished processing more than half a day ago, and carrying
a live-data entry. -/
def cleanCephQuery (nowT : Int) (r : RunDoc) : Bool :=
  r.bsState == "done" && r.status == "transferred" &&
  decide (r.start < nowT - 86400) && decide (r.bsTime < nowT - 43200) &&
  r.data.any (fun d => d.dtype == "live")

/-- Result of a `clean_ceph` invocation: final state, number of single-run
deletions driven, whether the drive reached its no-match (or non-designated
host) base case within the given fuel, and a propagated exception. -/
structure CephRes where
  st : DState
  deletions : Nat
  finished : Bool
  err : Option AjaxErr
deriving DecidableEq, Repr

/-- The `clean_ceph` drive: take the first matching run, remove it from the
shared tier, and in production join the deletion threads and recurse; in
dry-run return after the first match.  Recursion is bounded by fuel, so a
run that never stops matching exhausts the fuel with `finished := false`. -/
def clean_ceph (args : Args) (nowT : Int) : Nat → DState → CephRes
  | 0, st => ⟨st, 0, false, none⟩
  | fuel + 1, st =>
    if args.hostname ≠ ebCanCleanCeph then ⟨st, 0, true, none⟩
    else
      match st.reg.find? (cleanCephQuery nowT) with
      | none => ⟨st, 0, true, none⟩
      | some rd =>
        let r1 := remove_run_from_host args st rd.number true args.force
          "clean ceph"
        match r1.2 with
        | some e => ⟨r1.1, 1, false, some e⟩
        | none =>
          if args.production then
            let st2 := wait_on_delete_thread r1.1
            let r2 := clean_ceph args nowT fuel st2
            ⟨r2.st, r2.deletions + 1, r2.finished, r2.err⟩
          else ⟨r1.1, 1, true, none⟩

/-- The `clean_high_level_data` mode: it informs the state collection and
then immediately raises NotImplementedError (bin/ajax line 193), so the
query and deletion code below the raise is unreachable and the state is
returned unchanged. -/
def clean_high_level_data (st : DState) : DState × Option AjaxErr :=
  (st, some .notImplemented)

/-- Modelled from the spec (claim C9 wording): select runs that are done,
transferred, started more than a year ago and have entries on this host,
and delete every non-low-level entry on this host.  This is the behaviour
the spec table ascribes to high-level-cleanup; it is compared against the
code, which raises before reaching any of it. -/
def spec_clean_high_level_data (hn : String) (nowT : Int) (st : DState) :
    DState :=
  let lowLevel := ["raw_records", "records", "veto_regions", "pulse_counts",
    "led_calibration", "peaklets"]
  let sel := fun (r : RunDoc) =>
    r.bsState == "done" && r.status == "transferred" &&
    decide (r.start < nowT - 365 * 86400) &&
    r.data.any (fun d => d.host == hn)
  { st with reg := st.reg.map (fun r =>
      if sel r then
        { r with data := r.data.filter (fun d =>
            !(d.host == hn &&
              !(lowLevel.any (fun p => strContains d.dtype p)))) }
      else r) }

/-- Runs selected by one pass of `clean_abandoned`: without live data, the
first abandoned run with data on this host (a singleton batch); with live
data, every abandoned run past the processing-wait threshold whose data
mentions the live-data folder and the `daq` host. -/
def abandoned_pass_rds (args : Args) (nowT : Int) (st : DState)
    (delete_live : Bool) : List RunDoc :=
  if delete_live = false then
    match st.reg.find? (fun r =>
        r.bsState == "abandoned" &&
        r.data.any (fun d => d.host == args.hostname)) with
    | none => []
    | some rd => [rd]
  else
    st.reg.filter (fun r =>
      r.bsState == "abandoned" && decide (r.bsTime < nowT - 43200) &&
      r.data.any (fun d => d.location == "/live_data/xenonnt") &&
      r.data.any (fun d => d.host == "daq"))

/-- Result of a `clean_abandoned` invocation: final state, the
`remove_run_from_host` invocations it made as (run number, force flag)
pairs, a propagated exception, and whether the drive reached its
empty-batch base case within the given fuel. -/
structure CARes where
  st : DState
  calls : List (Nat × Bool)
  err : Option AjaxErr
  finished : Bool
deriving DecidableEq, Repr

/-- Per-run body of the `clean_abandoned` batch loop: remove the run with
the force flag hard-coded to true (abandoned runs are force-deleted), and
record the invocation; a previously raised exception short-circuits. -/
def ca_step (args : Args) (dl : Bool)
    (acc : DState × List (Nat × Bool) × Option AjaxErr) (rd : RunDoc) :
    DState × List (Nat × Bool) × Option AjaxErr :=
  match acc.2.2 with
  | some _ => acc
  | none =>
    let r := remove_run_from_host args acc.1 rd.number dl true
      "run abandonned"
    (r.1, acc.2.1 ++ [(rd.number, true)], r.2)

/-- Output of one pass of `clean_abandoned`: reached state, recorded
removal calls, propagated exception, and whether the batch was empty. -/
structure CAPass where
  st : DState
  calls : List (Nat × Bool)
  err : Option AjaxErr
  emptyBatch : Bool
deriving DecidableEq, Repr

/-- One pass of `clean_abandoned`: take at most `1 if ask_confirm else 5`
runs from the selection and remove each in turn. -/
def clean_abandoned_pass (args : Args) (nowT : Int) (dl : Bool)
    (st : DState) : CAPass :=
  let batch := (abandoned_pass_rds args nowT st dl).take
    (if args.ask_confirm then 1 else 5)
  let res := batch.foldl (ca_step args dl) (st, [], none)
  ⟨res.1, res.2.1, res.2.2, batch.isEmpty⟩

/-- The `clean_abandoned` drive: run a pass, and in production join the
live-data deletion threads and recurse until a pass matches nothing;
outside production return after one pass. -/
def clean_abandoned (args : Args) (nowT : Int) :
    Nat → Bool → DState → CARes
  | 0, _, st => ⟨st, [], none, false⟩
  | fuel + 1, dl, st =>
    match (clean_abandoned_pass args nowT dl st).err with
    | some e => ⟨(clean_abandoned_pass args nowT dl st).st,
        (clean_abandoned_pass args nowT dl st).calls, some e, false⟩
    | none =>
      if (clean_abandoned_pass args nowT dl st).emptyBatch then
        ⟨(clean_abandoned_pass args nowT dl st).st, [], none, true⟩
      else if args.production then
        let st2 := if dl then
            wait_on_delete_thread (clean_abandoned_pass args nowT dl st).st
          else (clean_abandoned_pass args nowT dl st).st
        let r2 := clean_abandoned args nowT fuel dl st2
        ⟨r2.st, (clean_abandoned_pass args nowT dl st).calls ++ r2.calls,
          r2.err, r2.finished⟩
      else ⟨(clean_abandoned_pass args nowT dl st).st,
        (clean_abandoned_pass args nowT dl st).calls, none, true⟩

/-- Outcome of one iteration body of the continuous-mode loop of
`main_ajax`: normal completion, an interrupt-class exception
(KeyboardInterrupt, SystemExit or NotImplementedError), or any other
exception, tagged with whether the alert-sink report itself succeeds. -/
inductive BodyOut where
  | ok
  | interruptClass
  | otherError (alertOk : Bool)
deriving DecidableEq, Repr

/-- Observable actions of the continuous-mode loop. -/
inductive LoopAct where
  | runBody
  | napSleep
  | backoffSleep60
  | logErrorAct
  | alertAttempt
  | alertFailLog
  | waitThreadsAct
deriving DecidableEq, Repr

/-- How the continuous-mode loop ended: still looping when the supplied
outcome stream ran out, broke normally (dry-run single sweep), or
re-raised an interrupt-class exception. -/
inductive LoopExit where
  | stillRunning
  | normalBreak
  | raisedInterrupt
deriving DecidableEq, Repr

/-- The `while True` loop of `main_ajax` in `--clean all` mode, driven by a
stream of body outcomes: a normal body is followed by the nap (or by a
break when not in production); an interrupt-class exception drains the
delete threads and is re-raised; any other exception is logged, reported
to the alert sink (a failing report is itself only logged), followed by
the fixed 60 s backoff, and the loop restarts. -/
def main_all_loop (production : Bool) : List BodyOut → List LoopAct × LoopExit
  | [] => ([], .stillRunning)
  | o :: rest =>
    match o with
    | .ok =>
      if production = false then ([.runBody], .normalBreak)
      else
        let r := main_all_loop production rest
        (.runBody :: .napSleep :: r.1, r.2)
    | .interruptClass => ([.runBody, .waitThreadsAct], .raisedInterrupt)
    | .otherError alertOk =>
      let r := main_all_loop production rest
      (.runBody :: .logErrorAct :: .alertAttempt ::
        ((if alertOk then [] else [.alertFailLog]) ++
          .backoffSleep60 :: r.1), r.2)

/-- Result of the unregistered-cleanup routines: priorities of the warnings
they logged, folders they moved to the quarantine folder, and the raised
exception, if any. -/
structure URes where
  warnings : List String
  moves : List String
  err : Option AjaxErr
deriving DecidableEq, Repr

/-- Decimal value of a digit list, used to parse a run id (kernel-reducible). -/
def digitsToNat : List Char → Nat → Nat
  | [], acc => acc
  | c :: cs, acc => digitsToNat cs (acc * 10 + (c.toNat - 48))

/-- Parse a zero-padded run id back to its number (`int(run_id)`). -/
def parseRunId (s : String) : Nat :=
  digitsToNat s.data 0

/-- The `_remove_unregistered_run` deep check: over every folder entry of
the base folder whose name contains the run id, look the run number up
afresh in the registry (a missing rundoc makes `check_rundoc_for_live_and_raw`
subscript None, a TypeError), re-check the copy-count safety (a failure is
a fatal ValueError), and in production move the folder to the quarantine
folder; if no folder matched, raise FileNotFoundError.  `ur_step` is the
per-folder body (the second component of its accumulator is the
`deleted_data` flag of the source). -/
def ur_step (args : Args) (reg : List RunDoc) (run_id : String)
    (acc : URes × Bool) (folder : String) : URes × Bool :=
  match acc.1.err with
  | some _ => acc
  | none =>
    if strContains folder run_id then
      match reg.find? (fun r => r.number == parseRunId run_id) with
      | none => (⟨acc.1.warnings, acc.1.moves, some .typeError⟩, acc.2)
      | some rd =>
        if 1 ≤ (check_rundoc_for_live_and_raw rd).1 ∨
            1 + durExtra folder ≤ (check_rundoc_for_live_and_raw rd).2 then
          if args.production then
            if confirm args then
              (⟨acc.1.warnings, acc.1.moves ++ [folder], none⟩, true)
            else (acc.1, true)
          else (acc.1, true)
        else
          (⟨acc.1.warnings ++ ["fatal"], acc.1.moves,
            some .integrityError⟩, acc.2)
    else acc

def remove_unregistered_run (args : Args) (reg : List RunDoc)
    (entries : List String) (run_id : String) (checked_db : Bool) : URes :=
  if checked_db = false then ⟨["fatal"], [], some .uncheckedCall⟩
  else
    let res := entries.foldl (ur_step args reg run_id)
      (⟨["warning"], [], none⟩, false)
    match res.1.err with
    | some _ => res.1
    | none =>
      if res.2 = false then
        ⟨res.1.warnings ++ ["fatal"], res.1.moves, some .fileNotFound⟩
      else res.1

/-- Registered-data test of `remove_if_unregistered`: a rundoc for the
number exists claiming data on the relevant host, and one of its locations
starts with the folder being cleaned. -/
def unregRegistered (args : Args) (reg : List RunDoc) (number : Nat)
    (delete_live : Bool) (clean_from : String) : Bool :=
  match reg.find? (fun r =>
      r.number == number &&
      r.data.any (fun d =>
        d.host == (if delete_live then "daq" else args.hostname))) with
  | some rd => rd.data.any (fun d => strStarts d.location clean_from)
  | none => false

def remove_if_unregistered (args : Args) (reg : List RunDoc)
    (entries : List String) (number : Nat) (delete_live : Bool)
    (clean_from : String) : URes :=
  if unregRegistered args reg number delete_live clean_from then
    ⟨[], [], none⟩
  else
    ⟨"error" ::
        (remove_unregistered_run args reg entries (runIdStr number)
          true).warnings,
      (remove_unregistered_run args reg entries (runIdStr number)
        true).moves,
      (remove_unregistered_run args reg entries (runIdStr number)
        true).err⟩

/-! Helper lemmas shared by the claim theorems. -/

/-- Count of `live` entries in a rundoc (the spec notion of liveCopies). -/
def liveCopies (rd : RunDoc) : Nat :=
  rd.data.countP (fun d => d.dtype == "live")

/-- Count of `raw_records` entries in a rundoc (the spec notion of
durableCopies). -/
def durableCopies (rd : RunDoc) : Nat :=
  rd.data.countP (fun d => d.dtype == "raw_records")

theorem check_foldl_aux (l : List DDoc) (a b : Nat) :
    l.foldl
      (fun acc dd =>
        (acc.1 + (if dd.dtype == "live" then 1 else 0),
         acc.2 + (if dd.dtype == "raw_records" then 1 else 0)))
      (a, b) =
    (a + l.countP (fun d => d.dtype == "live"),
     b + l.countP (fun d => d.dtype == "raw_records")) := by
  induction l generalizing a b with
  | nil => simp
  | cons d l ih =>
    simp only [List.foldl_cons, ih, List.countP_cons, Prod.mk.injEq]
    constructor <;> ring

theorem check_eq_counts (rd : RunDoc) :
    check_rundoc_for_live_and_raw rd = (liveCopies rd, durableCopies rd) := by
  simpa [check_rundoc_for_live_and_raw, liveCopies, durableCopies] using
    check_foldl_aux rd.data 0 0

/-- Guard characterisation: `guardFails` is false exactly when the spec
allow-condition holds. -/
theorem guardFails_iff (rd : RunDoc) (data_type : String) (ignore : Bool) :
    guardFails rd data_type ignore = false ↔
      (ignore = true ∨ 1 ≤ liveCopies rd ∨
        1 + durExtra data_type ≤ durableCopies rd) := by
  unfold guardFails
  cases hign : ignore
  · simp only [Bool.false_eq_true, reduceIte, check_eq_counts, false_or]
    by_cases h : (1 ≤ liveCopies rd ∨
        1 + durExtra data_type ≤ durableCopies rd) <;> simp [h]
  · simp

/-- Frame facts of the removal phase: it can only raise the missing-path
error, and it touches only the filesystem component of the state. -/
theorem dd_remove_phase_facts (args : Args) (st : DState) (path : String)
    (test : Bool) :
    (dd_remove_phase args st path test).2 ≠ some .integrityError ∧
    (dd_remove_phase args st path test).1.reg = st.reg ∧
    (dd_remove_phase args st path test).1.warnings = st.warnings ∧
    (dd_remove_phase args st path test).1.clock = st.clock ∧
    (dd_remove_phase args st path test).1.alive = st.alive ∧
    (dd_remove_phase args st path test).1.peak = st.peak := by
  unfold dd_remove_phase rmtreeModel
  split
  · split
    · split <;> simp
    · split <;> simp
  · simp

/-- Frame facts of the rundoc phase: it never raises the guard error and
never touches the filesystem, the warnings or the thread counters. -/
theorem dd_rundoc_phase_facts (args : Args) (st : DState) (rd : RunDoc)
    (path data_type : String) (test : Bool) (reason' : String) :
    (dd_rundoc_phase args st rd path data_type test reason').2 ≠
        some .integrityError ∧
    (dd_rundoc_phase args st rd path data_type test reason').1.fs = st.fs ∧
    (dd_rundoc_phase args st rd path data_type test reason').1.warnings =
      st.warnings ∧
    (dd_rundoc_phase args st rd path data_type test reason').1.alive =
      st.alive ∧
    (dd_rundoc_phase args st rd path data_type test reason').1.peak =
      st.peak := by
  unfold dd_rundoc_phase
  split
  · split <;> simp
  · split
    · simp
    · split
      · split <;> simp
      · simp

/-- Behaviour of `delete_data` past the guard: whenever the guard does not
raise (override set, counts fine, or dry-run), the only error it can still
raise is not the guard error, and the only warning written is the guard
warning. -/
theorem delete_data_tail_facts (args : Args) (st : DState) (rd : RunDoc)
    (path dt : String) (test ign : Bool) (reason' : String)
    (h : guardFails rd dt ign = true → test = true) :
    (delete_data args st rd path dt test ign reason').2 ≠
        some .integrityError ∧
    (delete_data args st rd path dt test ign reason').1.warnings =
      st.warnings ++ (if guardFails rd dt ign then ["fatal"] else []) := by
  have hcond : ¬(guardFails rd dt ign = true ∧ test = false) := by
    rintro ⟨h1, h2⟩
    rw [h h1] at h2
    exact Bool.noConfusion h2
  have hw1 :
      (if guardFails rd dt ign then logWarning st "fatal" else st).warnings =
        st.warnings ++ (if guardFails rd dt ign then ["fatal"] else []) := by
    by_cases hgf : guardFails rd dt ign = true <;> simp [hgf, logWarning]
  have hmain : delete_data args st rd path dt test ign reason' =
      (match dd_remove_phase args
          (if guardFails rd dt ign then logWarning st "fatal" else st)
          path test with
       | (st2, some e) => (st2, some e)
       | (st2, none) => dd_rundoc_phase args st2 rd path dt test reason') := by
    simp only [delete_data, if_neg hcond]
  rw [hmain]
  rcases hre : dd_remove_phase args
      (if guardFails rd dt ign then logWarning st "fatal" else st)
      path test with ⟨st2, e2⟩
  have hf1 := dd_remove_phase_facts args
    (if guardFails rd dt ign then logWarning st "fatal" else st) path test
  rw [hre] at hf1
  cases e2 with
  | some e =>
    refine ⟨?_, by rw [hf1.2.2.1, hw1]⟩
    intro hcontra
    exact hf1.1 hcontra
  | none =>
    have hf2 := dd_rundoc_phase_facts args st2 rd path dt test reason'
    exact ⟨hf2.1, by rw [hf2.2.2.1, hf1.2.2.1, hw1]⟩

/-- C1: the copy-count guard of `delete_data` allows a deletion exactly when
the override flag is set, or there is at least one live copy, or there are
at least `1 + (1 if the data type is a raw type)` raw copies; when it
rejects, it logs a fatal-priority warning, and raises only in
real-execution (non-test) mode while a dry-run call continues past the
guard without guard error. -/
theorem c1_copy_count_guard (args : Args) (st : DState) (rd : RunDoc)
    (path data_type : String) (test ignore : Bool) (reason' : String) :
    (guardFails rd data_type ignore = false ↔
      (ignore = true ∨ 1 ≤ liveCopies rd ∨
        1 + durExtra data_type ≤ durableCopies rd)) ∧
    (guardFails rd data_type ignore = true → test = false →
      delete_data args st rd path data_type test ignore reason' =
        (logWarning st "fatal", some .integrityError)) ∧
    (guardFails rd data_type ignore = true → test = true →
      (delete_data args st rd path data_type test ignore reason').2 ≠
          some .integrityError ∧
      (delete_data args st rd path data_type test ignore
          reason').1.warnings = st.warnings ++ ["fatal"]) ∧
    (guardFails rd data_type ignore = false →
      (delete_data args st rd path data_type test ignore
          reason').1.warnings = st.warnings ∧
      (delete_data args st rd path data_type test ignore reason').2 ≠
        some .integrityError) := by
  refine ⟨guardFails_iff rd data_type ignore, ?_, ?_, ?_⟩
  · intro hgf htest
    simp [delete_data, hgf, htest]
  · intro hgf htest
    have hfacts := delete_data_tail_facts args st rd path data_type test
      ignore reason' (fun _ => htest)
    exact ⟨hfacts.1, by simpa [hgf] using hfacts.2⟩
  · intro hgf
    have hfacts := delete_data_tail_facts args st rd path data_type test
      ignore reason' (fun hc => absurd hc (by simp [hgf]))
    exact ⟨by simpa [hgf] using hfacts.2, hfacts.1⟩

theorem c1_copy_count_guard_witness :
    (guardFails ⟨24399, "done", "transferred", 0, 0, "eb1",
        [⟨"raw_records", "eb1", "/d"⟩], []⟩ "raw_records" false = true) ∧
    delete_data ⟨true, false, false, true, "eb1"⟩ ⟨[], [], 0, [], 0, 0⟩
        ⟨24399, "done", "transferred", 0, 0, "eb1",
          [⟨"raw_records", "eb1", "/d"⟩], []⟩
        "/d" "raw_records" false false "r" =
      (logWarning ⟨[], [], 0, [], 0, 0⟩ "fatal", some .integrityError) := by
  refine ⟨by decide, ?_⟩
  exact (c1_copy_count_guard ⟨true, false, false, true, "eb1"⟩
    ⟨[], [], 0, [], 0, 0⟩
    ⟨24399, "done", "transferred", 0, 0, "eb1",
      [⟨"raw_records", "eb1", "/d"⟩], []⟩
    "/d" "raw_records" false false "r").2.1 (by decide) rfl

/-! Dry-run frame lemmas, used for claim C2 and the mode lemmas. -/

theorem dd_remove_phase_dry (args : Args) (st : DState) (path : String)
    (test : Bool) (h : test = true ∨ args.production = false) :
    dd_remove_phase args st path test = (st, none) := by
  unfold dd_remove_phase rmtreeModel
  rcases h with h | h
  · rw [if_neg]
    rintro ⟨_, h2⟩
    rw [h] at h2
    exact Bool.noConfusion h2
  · split
    · rename_i hc
      simp [h, hc.1]
    · rfl

theorem dd_rundoc_phase_dry (args : Args) (st : DState) (rd : RunDoc)
    (path dt : String) (test : Bool) (reason' : String)
    (h : test = true ∨ args.production = false) :
    (dd_rundoc_phase args st rd path dt test reason').1.fs = st.fs ∧
    (dd_rundoc_phase args st rd path dt test reason').1.reg = st.reg := by
  have hcond : ¬(args.production = true ∧ test = false) := by
    rintro ⟨h1, h2⟩
    rcases h with h | h
    · rw [h] at h2; exact Bool.noConfusion h2
    · rw [h] at h1; exact Bool.noConfusion h1
  unfold dd_rundoc_phase
  by_cases hmem : path ∈ st.fs
  · rw [if_pos hmem]
    split <;> simp
  · rw [if_neg hmem]
    rcases hfind : (rd.data.find? (ddocMatch dt args.hostname)).orElse
        (fun _ => rd.data.getLast?) with _ | d
    · simp [hfind]
    · simp [hfind, hcond]

theorem delete_data_dry_preserves (args : Args) (st : DState) (rd : RunDoc)
    (path dt : String) (test ign : Bool) (reason' : String)
    (h : test = true ∨ args.production = false) :
    (delete_data args st rd path dt test ign reason').1.fs = st.fs ∧
    (delete_data args st rd path dt test ign reason').1.reg = st.reg := by
  by_cases hraise : guardFails rd dt ign = true ∧ test = false
  · simp [delete_data, hraise.1, hraise.2, logWarning]
  · have hW : (if guardFails rd dt ign then logWarning st "fatal"
        else st).fs = st.fs ∧
        (if guardFails rd dt ign then logWarning st "fatal"
          else st).reg = st.reg := by
      by_cases hgf : guardFails rd dt ign = true <;> simp [hgf, logWarning]
    have hmain : delete_data args st rd path dt test ign reason' =
        dd_rundoc_phase args
          (if guardFails rd dt ign then logWarning st "fatal" else st)
          rd path dt test reason' := by
      simp only [delete_data, if_neg hraise,
        dd_remove_phase_dry args _ path test h]
    rw [hmain]
    have h2 := dd_rundoc_phase_dry args
      (if guardFails rd dt ign then logWarning st "fatal" else st)
      rd path dt test reason' h
    exact ⟨h2.1.trans hW.1, h2.2.trans hW.2⟩

theorem threaded_delete_data_frame (args : Args) (st : DState) (rd : RunDoc)
    (path dt : String) (test ign : Bool) (reason' : String)
    (h : test = true ∨ args.production = false) :
    (threaded_delete_data args st rd path dt test ign reason').fs = st.fs ∧
    (threaded_delete_data args st rd path dt test ign reason').reg =
      st.reg := by
  unfold threaded_delete_data
  exact delete_data_dry_preserves args
    { st with alive := st.alive + 1, peak := max st.peak (st.alive + 1) }
    rd path dt test ign reason' h

theorem rrfh_step_dry (args : Args) (rd : RunDoc) (dl force : Bool)
    (reason' : String) (hl hr : Nat) (acc : DState × Option AjaxErr)
    (d : DDoc) (h : args.production = false) :
    (rrfh_step args rd dl force reason' hl hr acc d).1.fs = acc.1.fs ∧
    (rrfh_step args rd dl force reason' hl hr acc d).1.reg = acc.1.reg := by
  have hdry : (!args.production) = true ∨ args.production = false :=
    Or.inr h
  rcases acc with ⟨st, e⟩
  cases e with
  | some e => exact ⟨rfl, rfl⟩
  | none =>
    show (rrfh_body args rd dl force reason' hl hr st d).1.fs = st.fs ∧
      (rrfh_body args rd dl force reason' hl hr st d).1.reg = st.reg
    unfold rrfh_body
    by_cases h1 : d.host = args.hostname
    · rw [if_pos h1]
      by_cases hdl : dl = true
      · simp [hdl]
      · simp only [Bool.not_eq_true] at hdl
        simp only [hdl, Bool.false_eq_true, reduceIte]
        split
        · exact ⟨rfl, rfl⟩
        · rcases hcall : delete_data args st rd d.location d.dtype
              (!args.production) force reason' with ⟨stA, eA⟩
          have hA := delete_data_dry_preserves args st rd d.location d.dtype
            (!args.production) force reason' hdry
          rw [hcall] at hA
          cases eA with
          | some e => simpa [hcall] using hA
          | none =>
            simp only [hcall]
            split
            · rcases hcall2 : delete_data args stA rd
                  (d.location ++ "_temp") d.dtype (!args.production) force
                  reason' with ⟨stB, eB⟩
              have hB := delete_data_dry_preserves args stA rd
                (d.location ++ "_temp") d.dtype (!args.production) force
                reason' hdry
              rw [hcall2] at hB
              simp only [hcall2]
              exact ⟨hB.1.trans hA.1, hB.2.trans hA.2⟩
            · exact hA
    · rw [if_neg h1]
      by_cases h2 : d.host = "daq"
      · rw [if_pos h2]
        by_cases hdl : dl = false
        · simp [hdl]
        · simp only [Bool.not_eq_false] at hdl
          simp only [hdl, Bool.true_eq_false, reduceIte]
          split
          · simp [logWarning]
          · split
            · exact threaded_delete_data_frame args st rd _ d.dtype
                (!args.production) false reason' hdry
            · exact threaded_delete_data_frame args st rd _ d.dtype
                (!args.production) true reason' hdry
      · rw [if_neg h2]
        exact ⟨rfl, rfl⟩

theorem rrfh_fold_dry (args : Args) (rd : RunDoc) (dl force : Bool)
    (reason' : String) (hl hr : Nat) (l : List DDoc)
    (acc : DState × Option AjaxErr) (h : args.production = false) :
    (l.foldl (rrfh_step args rd dl force reason' hl hr) acc).1.fs =
      acc.1.fs ∧
    (l.foldl (rrfh_step args rd dl force reason' hl hr) acc).1.reg =
      acc.1.reg := by
  induction l generalizing acc with
  | nil => exact ⟨rfl, rfl⟩
  | cons d l ih =>
    simp only [List.foldl_cons]
    have hstep := rrfh_step_dry args rd dl force reason' hl hr acc d h
    have hrest := ih (rrfh_step args rd dl force reason' hl hr acc d)
    exact ⟨hrest.1.trans hstep.1, hrest.2.trans hstep.2⟩

theorem remove_run_from_host_dry (args : Args) (st : DState) (n : Nat)
    (dl force : Bool) (reason' : String) (h : args.production = false) :
    (remove_run_from_host args st n dl force reason').1.fs = st.fs ∧
    (remove_run_from_host args st n dl force reason').1.reg = st.reg := by
  unfold remove_run_from_host
  split
  · simp [logWarning]
  · exact rrfh_fold_dry args _ dl force reason' _ _ _ (st, none) h

theorem clean_ceph_dry (args : Args) (nowT : Int) (fuel : Nat) (st : DState)
    (h : args.production = false) :
    (clean_ceph args nowT fuel st).st.fs = st.fs ∧
    (clean_ceph args nowT fuel st).st.reg = st.reg := by
  cases fuel with
  | zero => exact ⟨rfl, rfl⟩
  | succ fuel =>
    unfold clean_ceph
    split
    · exact ⟨rfl, rfl⟩
    · split
      · exact ⟨rfl, rfl⟩
      · rename_i rd hrd
        rcases hcall : remove_run_from_host args st rd.number true
            args.force "clean ceph" with ⟨stA, eA⟩
        have hA := remove_run_from_host_dry args st rd.number true
          args.force "clean ceph" h
        rw [hcall] at hA
        cases eA with
        | some e => simpa [hcall] using hA
        | none => simp only [hcall, h, Bool.false_eq_true, reduceIte]; exact hA

theorem ca_fold_dry (args : Args) (dl : Bool) (batch : List RunDoc)
    (acc : DState × List (Nat × Bool) × Option AjaxErr)
    (h : args.production = false) :
    ((batch.foldl (ca_step args dl) acc).1.fs = acc.1.fs ∧
     (batch.foldl (ca_step args dl) acc).1.reg = acc.1.reg) := by
  induction batch generalizing acc with
  | nil => exact ⟨rfl, rfl⟩
  | cons rd l ih =>
    simp only [List.foldl_cons]
    have hstep : (ca_step args dl acc rd).1.fs = acc.1.fs ∧
        (ca_step args dl acc rd).1.reg = acc.1.reg := by
      unfold ca_step
      split
      · exact ⟨rfl, rfl⟩
      · exact remove_run_from_host_dry args acc.1 rd.number dl true
          "run abandonned" h
    have hrest := ih (ca_step args dl acc rd)
    exact ⟨hrest.1.trans hstep.1, hrest.2.trans hstep.2⟩

theorem clean_abandoned_pass_dry (args : Args) (nowT : Int) (dl : Bool)
    (st : DState) (h : args.production = false) :
    (clean_abandoned_pass args nowT dl st).st.fs = st.fs ∧
    (clean_abandoned_pass args nowT dl st).st.reg = st.reg := by
  unfold clean_abandoned_pass
  exact ca_fold_dry args dl _ (st, [], none) h

theorem clean_abandoned_dry (args : Args) (nowT : Int) (fuel : Nat)
    (dl : Bool) (st : DState) (h : args.production = false) :
    (clean_abandoned args nowT fuel dl st).st.fs = st.fs ∧
    (clean_abandoned args nowT fuel dl st).st.reg = st.reg := by
  cases fuel with
  | zero => exact ⟨rfl, rfl⟩
  | succ fuel =>
    unfold clean_abandoned
    have hpass := clean_abandoned_pass_dry args nowT dl st h
    rcases hpe : (clean_abandoned_pass args nowT dl st).err with _ | e
    · simp only [hpe]
      split
      · exact hpass
      · simp only [h, Bool.false_eq_true, reduceIte]
        exact hpass
    · simp only [hpe]
      exact hpass

theorem ur_fold_moves (args : Args) (reg : List RunDoc) (run_id : String)
    (entries : List String) (acc : URes × Bool)
    (h : args.production = false) :
    (entries.foldl (ur_step args reg run_id) acc).1.moves =
      acc.1.moves := by
  induction entries generalizing acc with
  | nil => rfl
  | cons f l ih =>
    simp only [List.foldl_cons]
    have hstep : (ur_step args reg run_id acc f).1.moves = acc.1.moves := by
      unfold ur_step
      repeat' split
      all_goals simp_all
    exact (ih (ur_step args reg run_id acc f)).trans hstep

theorem remove_unregistered_run_moves_dry (args : Args) (reg : List RunDoc)
    (entries : List String) (run_id : String) (cdb : Bool)
    (h : args.production = false) :
    (remove_unregistered_run args reg entries run_id cdb).moves = [] := by
  unfold remove_unregistered_run
  have hfold := ur_fold_moves args reg run_id entries
    (⟨["warning"], [], none⟩, false) h
  split
  · rfl
  · rcases he : (entries.foldl (ur_step args reg run_id)
        (⟨["warning"], [], none⟩, false)).1.err with _ | e
    · simp only [he]
      split <;> simp_all
    · simp only [he]
      exact hfold

theorem remove_if_unregistered_dry (args : Args) (reg : List RunDoc)
    (entries : List String) (n : Nat) (dl : Bool) (cf : String)
    (h : args.production = false) :
    (remove_if_unregistered args reg entries n dl cf).moves = [] := by
  unfold remove_if_unregistered
  have hrun := remove_unregistered_run_moves_dry args reg entries
    (runIdStr n) true h
  split
  · rfl
  · exact hrun

/-- C2: with dry-run active (the delete call made in test mode, or the
production flag unset), the deletion path mutates neither the filesystem
nor the registry: `delete_data` and `_rmtree` leave both components
unchanged, `remove_run_from_host`, `clean_ceph` and `clean_abandoned`
preserve them for any number of matched candidates, and the
unregistered-cleanup path moves no folder. -/
theorem c2_dry_run_no_mutation :
    (∀ args st rd path dt test ign reason',
      (test = true ∨ args.production = false) →
      (delete_data args st rd path dt test ign reason').1.fs = st.fs ∧
      (delete_data args st rd path dt test ign reason').1.reg = st.reg) ∧
    (∀ args fs path, args.production = false →
      (rmtreeModel args fs path).1 = fs) ∧
    (∀ args st n dl force reason', args.production = false →
      (remove_run_from_host args st n dl force reason').1.fs = st.fs ∧
      (remove_run_from_host args st n dl force reason').1.reg = st.reg) ∧
    (∀ args nowT fuel st, args.production = false →
      (clean_ceph args nowT fuel st).st.fs = st.fs ∧
      (clean_ceph args nowT fuel st).st.reg = st.reg) ∧
    (∀ args nowT fuel dl st, args.production = false →
      (clean_abandoned args nowT fuel dl st).st.fs = st.fs ∧
      (clean_abandoned args nowT fuel dl st).st.reg = st.reg) ∧
    (∀ args reg entries n dl cf, args.production = false →
      (remove_if_unregistered args reg entries n dl cf).moves = []) := by
  refine ⟨fun args st rd path dt test ign reason' h =>
      delete_data_dry_preserves args st rd path dt test ign reason' h,
    fun args fs path h => by
      simp only [rmtreeModel, h, Bool.false_eq_true, reduceIte]
      split <;> rfl,
    fun args st n dl force reason' h =>
      remove_run_from_host_dry args st n dl force reason' h,
    fun args nowT fuel st h => clean_ceph_dry args nowT fuel st h,
    fun args nowT fuel dl st h => clean_abandoned_dry args nowT fuel dl st h,
    fun args reg entries n dl cf h =>
      remove_if_unregistered_dry args reg entries n dl cf h⟩

theorem c2_dry_run_no_mutation_witness :
    ((delete_data ⟨false, false, false, true, "eb1"⟩
        ⟨["/d"], [⟨7, "done", "transferred", 0, 0, "eb1",
          [⟨"raw_records", "eb1", "/d"⟩], []⟩], 0, [], 0, 0⟩
        ⟨7, "done", "transferred", 0, 0, "eb1",
          [⟨"raw_records", "eb1", "/d"⟩], []⟩
        "/d" "raw_records" true false "r").1.fs = ["/d"]) ∧
    ((clean_ceph ⟨false, false, false, true, "eb0.xenon.local"⟩ 0 3
        ⟨["/d"], [⟨7, "done", "transferred", -100000, -50000, "eb1",
          [⟨"live", "daq", "/live_data/xenonnt"⟩], []⟩], 0, [], 0, 0⟩).st.reg =
      [⟨7, "done", "transferred", -100000, -50000, "eb1",
        [⟨"live", "daq", "/live_data/xenonnt"⟩], []⟩]) := by
  constructor
  · exact (c2_dry_run_no_mutation.1 ⟨false, false, false, true, "eb1"⟩
      ⟨["/d"], [⟨7, "done", "transferred", 0, 0, "eb1",
        [⟨"raw_records", "eb1", "/d"⟩], []⟩], 0, [], 0, 0⟩
      ⟨7, "done", "transferred", 0, 0, "eb1",
        [⟨"raw_records", "eb1", "/d"⟩], []⟩
      "/d" "raw_records" true false "r" (Or.inl rfl)).1
  · exact (c2_dry_run_no_mutation.2.2.2.1
      ⟨false, false, false, true, "eb0.xenon.local"⟩ 0 3
      ⟨["/d"], [⟨7, "done", "transferred", -100000, -50000, "eb1",
        [⟨"live", "daq", "/live_data/xenonnt"⟩], []⟩], 0, [], 0, 0⟩
      rfl).2

/-! Claim C9: the high-level-cleanup mode. -/

/-- C9 counterexample: on a registry holding a year-old done and transferred
run with a deletable high-level entry on this host, invoking
`clean_high_level_data` raises NotImplementedError and leaves the registry
untouched, while the behaviour the claim describes (embodied by
`spec_clean_high_level_data`, written from the spec table) would delete the
host-local high-level entry. -/
theorem c9_counterexample :
    clean_high_level_data
        ⟨["/out/p"], [⟨9, "done", "transferred", -40000000, -40000000, "eb1",
          [⟨"peaks", "eb1", "/out/p"⟩, ⟨"raw_records", "shared", "/s"⟩],
          []⟩], 0, [], 0, 0⟩ =
      (⟨["/out/p"], [⟨9, "done", "transferred", -40000000, -40000000, "eb1",
        [⟨"peaks", "eb1", "/out/p"⟩, ⟨"raw_records", "shared", "/s"⟩],
        []⟩], 0, [], 0, 0⟩, some .notImplemented) ∧
    (spec_clean_high_level_data "eb1" 0
        ⟨["/out/p"], [⟨9, "done", "transferred", -40000000, -40000000, "eb1",
          [⟨"peaks", "eb1", "/out/p"⟩, ⟨"raw_records", "shared", "/s"⟩],
          []⟩], 0, [], 0, 0⟩).reg =
      [⟨9, "done", "transferred", -40000000, -40000000, "eb1",
        [⟨"raw_records", "shared", "/s"⟩], []⟩] := by
  constructor
  · rfl
  · rfl

/-- C9 amended: invoking the high-level-cleanup mode raises
NotImplementedError before running any query, so it never selects runs and
never deletes anything: the state comes back unchanged for every input. -/
theorem c9_high_level_not_implemented (st : DState) :
    clean_high_level_data st = (st, some .notImplemented) := rfl

/-! Claim C10: abandoned-cleanup always forces. -/

theorem ca_fold_calls_forced (args : Args) (dl : Bool)
    (batch : List RunDoc)
    (acc : DState × List (Nat × Bool) × Option AjaxErr)
    (h : acc.2.1.all (fun c => c.2) = true) :
    ((batch.foldl (ca_step args dl) acc).2.1.all (fun c => c.2)) = true := by
  induction batch generalizing acc with
  | nil => exact h
  | cons rd l ih =>
    simp only [List.foldl_cons]
    apply ih
    unfold ca_step
    split
    · exact h
    · simp [h]

theorem clean_abandoned_calls_forced (args : Args) (nowT : Int) (fuel : Nat)
    (dl : Bool) (st : DState) :
    ((clean_abandoned args nowT fuel dl st).calls.all
      (fun c => c.2)) = true := by
  induction fuel generalizing st with
  | zero => rfl
  | succ fuel ih =>
    unfold clean_abandoned
    have hpass : ((clean_abandoned_pass args nowT dl st).calls.all
        (fun c => c.2)) = true := by
      unfold clean_abandoned_pass
      exact ca_fold_calls_forced args dl _ (st, [], none) rfl
    rcases hpe : (clean_abandoned_pass args nowT dl st).err with _ | e
    · simp only [hpe]
      split
      · rfl
      · split
        · simp only [List.all_append, Bool.and_eq_true]
          exact ⟨hpass, ih _⟩
        · exact hpass
    · simp only [hpe]
      exact hpass

/-- C10: every `remove_run_from_host` invocation made by the
abandoned-cleanup mode carries the force flag hard-coded to true, whatever
the command-line force flag was; and a forced `delete_data` skips the
copy-count guard entirely: it neither raises the guard error nor logs the
guard warning, even on a record with zero live and zero raw copies. -/
theorem c10_abandoned_always_forced :
    (∀ args nowT fuel dl st,
      ((clean_abandoned args nowT fuel dl st).calls.all
        (fun c => c.2)) = true) ∧
    (∀ args st rd path dt test reason',
      (delete_data args st rd path dt test true reason').2 ≠
          some .integrityError ∧
      (delete_data args st rd path dt test true reason').1.warnings =
        st.warnings) := by
  constructor
  · exact fun args nowT fuel dl st =>
      clean_abandoned_calls_forced args nowT fuel dl st
  · intro args st rd path dt test reason'
    have hfacts := delete_data_tail_facts args st rd path dt test true
      reason' (fun hc => absurd hc (by simp [guardFails]))
    exact ⟨hfacts.1, by simpa [guardFails] using hfacts.2⟩

/-! Claim C6: the continuous-mode outer loop. -/

/-- C6: in continuous production mode, a body iteration that raises a
non-interrupt error is caught at the outer loop, logged, reported to the
alert sink (a failed report is itself only logged), followed by the fixed
60 s backoff, and the loop restarts on the remaining outcomes; the loop
never terminates as long as no interrupt-class exception occurs, and when
one does occur the delete threads are drained (the last action) before the
exception is re-raised. -/
theorem c6_continuous_error_backoff :
    (∀ outs : List BodyOut, (∀ o ∈ outs, o ≠ .interruptClass) →
      (main_all_loop true outs).2 = .stillRunning) ∧
    (∀ outs : List BodyOut,
      (main_all_loop true outs).2 = .raisedInterrupt →
      (main_all_loop true outs).1.getLast? = some .waitThreadsAct) ∧
    (∀ (alertOk : Bool) (rest : List BodyOut),
      main_all_loop true (.otherError alertOk :: rest) =
        (.runBody :: .logErrorAct :: .alertAttempt ::
          ((if alertOk then [] else [.alertFailLog]) ++
            .backoffSleep60 :: (main_all_loop true rest).1),
         (main_all_loop true rest).2)) := by
  refine ⟨?_, ?_, ?_⟩
  · intro outs h
    induction outs with
    | nil => rfl
    | cons o rest ih =>
      have ho := h o (List.mem_cons_self o rest)
      have hrest := ih (fun x hx => h x (List.mem_cons_of_mem o hx))
      cases o with
      | ok => simpa [main_all_loop] using hrest
      | interruptClass => exact absurd rfl ho
      | otherError aok => simpa [main_all_loop] using hrest
  · intro outs h
    induction outs with
    | nil => simp [main_all_loop] at h
    | cons o rest ih =>
      cases o with
      | ok =>
        simp only [main_all_loop, Bool.true_eq_false, reduceIte] at h ⊢
        have := ih h
        rcases hrest : (main_all_loop true rest).1 with _ | ⟨a, l⟩
        · rw [hrest] at this
          simp at this
        · rw [hrest] at this
          simpa [List.getLast?_cons_cons] using this
      | interruptClass => rfl
      | otherError aok =>
        simp only [main_all_loop] at h ⊢
        have := ih h
        rcases hrest : (main_all_loop true rest).1 with _ | ⟨a, l⟩
        · rw [hrest] at this
          simp at this
        · rw [hrest] at this
          cases aok <;> simpa [List.getLast?_cons_cons] using this
  · intro aok rest
    rfl

theorem c6_continuous_error_backoff_witness :
    ((main_all_loop true [.otherError true, .ok, .otherError false]).2 =
      .stillRunning) ∧
    ((main_all_loop true [.ok, .interruptClass]).1.getLast? =
      some .waitThreadsAct) := by
  constructor
  · exact c6_continuous_error_backoff.1
      [.otherError true, .ok, .otherError false] (by decide)
  · exact c6_continuous_error_backoff.2.1 [.ok, .interruptClass] (by decide)

/-! Claim C7: deletion threads. -/

theorem delete_data_counters (args : Args) (st : DState) (rd : RunDoc)
    (path dt : String) (test ign : Bool) (reason' : String) :
    (delete_data args st rd path dt test ign reason').1.alive = st.alive ∧
    (delete_data args st rd path dt test ign reason').1.peak = st.peak := by
  by_cases hraise : guardFails rd dt ign = true ∧ test = false
  · simp [delete_data, hraise.1, hraise.2, logWarning]
  · have hmain : delete_data args st rd path dt test ign reason' =
        (match dd_remove_phase args
            (if guardFails rd dt ign then logWarning st "fatal" else st)
            path test with
         | (st2, some e) => (st2, some e)
         | (st2, none) =>
           dd_rundoc_phase args st2 rd path dt test reason') := by
      simp only [delete_data, if_neg hraise]
    rw [hmain]
    have hW : (if guardFails rd dt ign then logWarning st "fatal"
        else st).alive = st.alive ∧
        (if guardFails rd dt ign then logWarning st "fatal"
          else st).peak = st.peak := by
      by_cases hgf : guardFails rd dt ign = true <;> simp [hgf, logWarning]
    rcases hre : dd_remove_phase args
        (if guardFails rd dt ign then logWarning st "fatal" else st)
        path test with ⟨st2, e2⟩
    have hf1 := dd_remove_phase_facts args
      (if guardFails rd dt ign then logWarning st "fatal" else st) path test
    rw [hre] at hf1
    cases e2 with
    | some e =>
      exact ⟨hf1.2.2.2.2.1.trans hW.1, hf1.2.2.2.2.2.trans hW.2⟩
    | none =>
      have hf2 := dd_rundoc_phase_facts args st2 rd path dt test reason'
      exact ⟨(hf2.2.2.2.1.trans hf1.2.2.2.2.1).trans hW.1,
        (hf2.2.2.2.2.trans hf1.2.2.2.2.2).trans hW.2⟩

theorem ca_fold_calls_len (args : Args) (dl : Bool) (batch : List RunDoc)
    (acc : DState × List (Nat × Bool) × Option AjaxErr) :
    (batch.foldl (ca_step args dl) acc).2.1.length ≤
      acc.2.1.length + batch.length := by
  induction batch generalizing acc with
  | nil => simp
  | cons rd l ih =>
    simp only [List.foldl_cons, List.length_cons]
    have hstep : (ca_step args dl acc rd).2.1.length ≤
        acc.2.1.length + 1 := by
      unfold ca_step
      split
      · omega
      · simp
    have := ih (ca_step args dl acc rd)
    omega

/-- C7 counterexample: one `remove_run_from_host` call on a run whose
shared tier holds six live entries spawns six deletion threads with no
join in between, so six are alive at once, exceeding the claimed capacity
of five (the source has no worker pool; it opens one daemon thread per
deletion). -/
theorem c7_counterexample :
    ((remove_run_from_host ⟨true, false, false, true, "eb0"⟩
        ⟨[], [⟨1, "abandoned", "transferred", 0, 0, "eb1",
          [⟨"raw_records", "eb9", "/rr"⟩,
           ⟨"live", "daq", "/l1"⟩, ⟨"live", "daq", "/l2"⟩,
           ⟨"live", "daq", "/l3"⟩, ⟨"live", "daq", "/l4"⟩,
           ⟨"live", "daq", "/l5"⟩, ⟨"live", "daq", "/l6"⟩], []⟩],
          0, [], 0, 0⟩
        1 true false "x").1.peak = 6) ∧ ¬(6 ≤ 5) := by
  constructor
  · rfl
  · decide

/-- C7 amended: there is no worker pool; each shared-tier deletion opens
its own daemon thread (the alive count rises by exactly one per
submission).  The capacity `1 if ask_confirm else 5` is only the per-pass
run cap of the abandoned-cleanup batch loop, and `wait_on_delete_thread`
(called on the shutdown paths and between passes) blocks until every
spawned deletion thread has finished. -/
theorem c7_thread_bounds :
    (∀ args nowT dl st,
      (clean_abandoned_pass args nowT dl st).calls.length ≤
        (if args.ask_confirm then 1 else 5)) ∧
    (∀ st, (wait_on_delete_thread st).alive = 0) ∧
    (∀ args st rd path dt test ign reason',
      (threaded_delete_data args st rd path dt test ign
        reason').alive = st.alive + 1 ∧
      (threaded_delete_data args st rd path dt test ign
        reason').peak = max st.peak (st.alive + 1)) := by
  refine ⟨?_, fun st => rfl, ?_⟩
  · intro args nowT dl st
    have hfold := ca_fold_calls_len args dl
      ((abandoned_pass_rds args nowT st dl).take
        (if args.ask_confirm then 1 else 5)) (st, [], none)
    have htake : ((abandoned_pass_rds args nowT st dl).take
        (if args.ask_confirm then 1 else 5)).length ≤
        (if args.ask_confirm then 1 else 5) := by
      simp [List.length_take]
    show ((((abandoned_pass_rds args nowT st dl).take
        (if args.ask_confirm then 1 else 5)).foldl (ca_step args dl)
        (st, [], none)).2.1.length ≤ _)
    simp only [List.length_nil] at hfold
    omega
  · intro args st rd path dt test ign reason'
    unfold threaded_delete_data
    exact delete_data_counters args _ rd path dt test ign reason'

/-! Claim C8: unregistered-cleanup behaviour. -/

theorem ur_fold_nomatch (args : Args) (reg : List RunDoc)
    (run_id : String) (entries : List String) (acc : URes × Bool)
    (h : ∀ f ∈ entries, strContains f run_id = false) :
    entries.foldl (ur_step args reg run_id) acc = acc := by
  induction entries generalizing acc with
  | nil => rfl
  | cons f l ih =>
    simp only [List.foldl_cons]
    have hstep : ur_step args reg run_id acc f = acc := by
      unfold ur_step
      split
      · rfl
      · rw [if_neg]
        intro hc
        rw [h f (List.mem_cons_self f l)] at hc
        exact Bool.noConfusion hc
    rw [hstep]
    exact ih _ (fun x hx => h x (List.mem_cons_of_mem f hx))

/-- C8 counterexample: a folder for run 000123 is present but no RunRecord
exists anywhere; the discovery is reported with priority `error`, but the
deep check then subscripts the missing rundoc and dies with a TypeError
rather than raising the FileNotFoundError-equivalent the claim expects,
and no safety confirmation happens. -/
theorem c8_counterexample :
    remove_if_unregistered ⟨true, false, false, true, "eb1"⟩ []
        ["000123-raw_records-abc"] 123 false "/pre" =
      ⟨["error", "warning"], [], some .typeError⟩ ∧
    some AjaxErr.typeError ≠ some AjaxErr.fileNotFound := by
  constructor
  · rfl
  · decide

/-- C8 amended: an unregistered run is reported with priority `error`
(first conjunct: every invocation either finds the run registered and does
nothing, or leads with an `error` warning); the deep check then raises
FileNotFoundError when no folder matches the run id, crashes with a
TypeError when a matching folder exists but no rundoc is found anywhere,
and when the fresh lookup finds a rundoc that passes the copy-count check
it proceeds without error, moving the folder in confirmed production. -/
theorem c8_unregistered_deep_check :
    (∀ args reg entries n dl cf,
      remove_if_unregistered args reg entries n dl cf = ⟨[], [], none⟩ ∨
      (remove_if_unregistered args reg entries n dl cf).warnings.head? =
        some "error") ∧
    (∀ args reg entries run_id,
      (∀ f ∈ entries, strContains f run_id = false) →
      (remove_unregistered_run args reg entries run_id true).err =
        some .fileNotFound) ∧
    (∀ args reg f run_id,
      strContains f run_id = true →
      reg.find? (fun r => r.number == parseRunId run_id) = none →
      (remove_unregistered_run args reg [f] run_id true).err =
        some .typeError) ∧
    (∀ args reg f run_id rd,
      strContains f run_id = true →
      reg.find? (fun r => r.number == parseRunId run_id) = some rd →
      (1 ≤ (check_rundoc_for_live_and_raw rd).1 ∨
        1 + durExtra f ≤ (check_rundoc_for_live_and_raw rd).2) →
      (remove_unregistered_run args reg [f] run_id true).err = none ∧
      (args.production = true → confirm args = true →
        (remove_unregistered_run args reg [f] run_id true).moves =
          [f])) := by
  refine ⟨?_, ?_, ?_, ?_⟩
  · intro args reg entries n dl cf
    unfold remove_if_unregistered
    split
    · exact Or.inl rfl
    · exact Or.inr rfl
  · intro args reg entries run_id h
    unfold remove_unregistered_run
    rw [ur_fold_nomatch args reg run_id entries _ h]
    rfl
  · intro args reg f run_id hc hfind
    unfold remove_unregistered_run
    simp only [Bool.false_eq_true, reduceIte, List.foldl_cons,
      List.foldl_nil, ur_step, hc, hfind]
    rfl
  · intro args reg f run_id rd hc hfind hsafe
    unfold remove_unregistered_run
    simp only [Bool.false_eq_true, reduceIte, List.foldl_cons,
      List.foldl_nil, ur_step, hc, hfind, if_pos hsafe]
    by_cases hprod : args.production = true
    · by_cases hconf : confirm args = true
      · simp [hprod, hconf]
      · simp [hprod, hconf]
    · simp [hprod]

theorem c8_unregistered_deep_check_witness :
    ((remove_unregistered_run ⟨true, false, false, true, "eb1"⟩ []
        ["123-x"] "000123" true).err = some .fileNotFound) ∧
    ((remove_unregistered_run ⟨true, false, false, true, "eb1"⟩
        [⟨123, "done", "transferred", 0, 0, "eb1",
          [⟨"raw_records", "shared", "/s"⟩, ⟨"live", "daq", "/l"⟩], []⟩]
        ["000123-peaks-abc"] "000123" true).moves =
      ["000123-peaks-abc"]) := by
  constructor
  · exact c8_unregistered_deep_check.2.1 ⟨true, false, false, true, "eb1"⟩
      [] ["123-x"] "000123" (by decide)
  · exact (c8_unregistered_deep_check.2.2.2
      ⟨true, false, false, true, "eb1"⟩
      [⟨123, "done", "transferred", 0, 0, "eb1",
        [⟨"raw_records", "shared", "/s"⟩, ⟨"live", "daq", "/l"⟩], []⟩]
      "000123-peaks-abc" "000123"
      ⟨123, "done", "transferred", 0, 0, "eb1",
        [⟨"raw_records", "shared", "/s"⟩, ⟨"live", "daq", "/l"⟩], []⟩
      (by decide) (by decide) (by decide)).2 rfl rfl

/-! Helper lemmas for the registry-update branch of `delete_data`,
shared by claims C3, C4 and C5. -/

theorem delete_data_update (args : Args) (st : DState) (rd : RunDoc)
    (path dt : String) (ign : Bool) (reason' : String) (d : DDoc)
    (hpath : path ∉ st.fs)
    (hgf : guardFails rd dt ign = false)
    (hfind : rd.data.find? (ddocMatch dt args.hostname) = some d)
    (hprod : args.production = true)
    (hconf : confirm args = true) :
    delete_data args st rd path dt false ign reason' =
      ({ st with
          clock := st.clock + 1,
          reg := update_rundoc st.reg rd.number
            (applyPull dt args.hostname
              ⟨d.dtype, d.host, st.clock, "ajax." ++ args.hostname,
                reason'⟩) }, none) := by
  have hgfn : ¬(guardFails rd dt ign = true) := by simp [hgf]
  have hmain : delete_data args st rd path dt false ign reason' =
      (match dd_remove_phase args
          (if guardFails rd dt ign then logWarning st "fatal" else st)
          path false with
       | (st2, some e) => (st2, some e)
       | (st2, none) =>
         dd_rundoc_phase args st2 rd path dt false reason') := by
    simp only [delete_data, eq_self_iff_true, and_true, if_neg hgfn]
  have h1 : (if guardFails rd dt ign then logWarning st "fatal" else st) =
      st := by
    rw [hgf]
    simp
  have h2 : dd_remove_phase args st path false = (st, none) := by
    unfold dd_remove_phase
    rw [if_neg]
    rintro ⟨hmem, _⟩
    exact hpath hmem
  rw [hmain, h1, h2]
  show dd_rundoc_phase args st rd path dt false reason' = _
  unfold dd_rundoc_phase
  rw [if_neg hpath, hfind]
  simp [Option.orElse, hprod, hconf]

theorem delete_data_fallback (args : Args) (st : DState) (rd : RunDoc)
    (path dt : String) (ign : Bool) (reason' : String) (d : DDoc)
    (hpath : path ∉ st.fs)
    (hgf : guardFails rd dt ign = false)
    (hfind : rd.data.find? (ddocMatch dt args.hostname) = none)
    (hlast : rd.data.getLast? = some d)
    (hprod : args.production = true)
    (hconf : confirm args = true) :
    delete_data args st rd path dt false ign reason' =
      ({ st with
          clock := st.clock + 1,
          reg := update_rundoc st.reg rd.number
            (applyPull dt args.hostname
              ⟨d.dtype, d.host, st.clock, "ajax." ++ args.hostname,
                reason'⟩) }, none) := by
  have hgfn : ¬(guardFails rd dt ign = true) := by simp [hgf]
  have hmain : delete_data args st rd path dt false ign reason' =
      (match dd_remove_phase args
          (if guardFails rd dt ign then logWarning st "fatal" else st)
          path false with
       | (st2, some e) => (st2, some e)
       | (st2, none) =>
         dd_rundoc_phase args st2 rd path dt false reason') := by
    simp only [delete_data, eq_self_iff_true, and_true, if_neg hgfn]
  have h1 : (if guardFails rd dt ign then logWarning st "fatal" else st) =
      st := by
    rw [hgf]
    simp
  have h2 : dd_remove_phase args st path false = (st, none) := by
    unfold dd_remove_phase
    rw [if_neg]
    rintro ⟨hmem, _⟩
    exact hpath hmem
  rw [hmain, h1, h2]
  show dd_rundoc_phase args st rd path dt false reason' = _
  unfold dd_rundoc_phase
  rw [if_neg hpath, hfind, hlast]
  simp [Option.orElse, hprod, hconf]

theorem delete_data_empty_data (args : Args) (st : DState) (rd : RunDoc)
    (path dt : String) (ign : Bool) (reason' : String)
    (hpath : path ∉ st.fs)
    (hgf : guardFails rd dt ign = false)
    (hempty : rd.data = []) :
    delete_data args st rd path dt false ign reason' =
      (st, some .nameError) := by
  have hgfn : ¬(guardFails rd dt ign = true) := by simp [hgf]
  have hmain : delete_data args st rd path dt false ign reason' =
      (match dd_remove_phase args
          (if guardFails rd dt ign then logWarning st "fatal" else st)
          path false with
       | (st2, some e) => (st2, some e)
       | (st2, none) =>
         dd_rundoc_phase args st2 rd path dt false reason') := by
    simp only [delete_data, eq_self_iff_true, and_true, if_neg hgfn]
  have h1 : (if guardFails rd dt ign then logWarning st "fatal" else st) =
      st := by
    rw [hgf]
    simp
  have h2 : dd_remove_phase args st path false = (st, none) := by
    unfold dd_remove_phase
    rw [if_neg]
    rintro ⟨hmem, _⟩
    exact hpath hmem
  rw [hmain, h1, h2]
  show dd_rundoc_phase args st rd path dt false reason' = _
  unfold dd_rundoc_phase
  rw [if_neg hpath, hempty]
  simp [Option.orElse]

/-- Membership view of the `$pull` filter: an entry survives the atomic
update exactly when it does not match the pulled (type, daq-or-local-host)
condition. -/
theorem applyPull_mem (dt hn : String) (recDoc : DeletedDoc) (r : RunDoc)
    (d : DDoc) :
    d ∈ (applyPull dt hn recDoc r).data ↔
      d ∈ r.data ∧ ¬(d.dtype = dt ∧ (d.host = "daq" ∨ d.host = hn)) := by
  simp only [applyPull, List.mem_filter, Bool.not_eq_eq_eq_not,
    Bool.not_true, Bool.and_eq_false_imp]
  constructor
  · rintro ⟨hmem, hcond⟩
    refine ⟨hmem, ?_⟩
    rintro ⟨hdt, hh⟩
    have := hcond (by simp [hdt])
    rcases hh with hh | hh <;> simp [hh] at this
  · rintro ⟨hmem, hcond⟩
    refine ⟨hmem, ?_⟩
    intro hdt
    simp only [beq_iff_eq] at hdt
    by_cases h1 : d.host = "daq"
    · exact absurd ⟨hdt, Or.inl h1⟩ hcond
    · by_cases h2 : d.host = hn
      · exact absurd ⟨hdt, Or.inr h2⟩ hcond
      · simp [h1, h2]

/-- The `$addToSet` side of the atomic update: the new record is present
afterwards and no previous record is lost. -/
theorem applyPull_deleted (dt hn : String) (recDoc : DeletedDoc)
    (r : RunDoc) :
    recDoc ∈ (applyPull dt hn recDoc r).deleted_data ∧
    ∀ x ∈ r.deleted_data, x ∈ (applyPull dt hn recDoc r).deleted_data := by
  unfold applyPull
  by_cases h : recDoc ∈ r.deleted_data
  · simp [h]
  · simp only [h, reduceIte, List.mem_append, List.mem_singleton,
      or_true, true_and]
    exact fun x hx => Or.inl hx

/-- C3 counterexample: deleting `raw_records` from a run that stores one
`raw_records` copy on the shared host `daq` and another on the local host
`eb0` removes BOTH entries in the single update (the `$pull` matches host
`daq` or the local host), while the claim promises that exactly the one
entry matching the chosen (dataType, host) pair — here (raw_records, daq),
the first match — is removed and every other entry left unchanged. -/
theorem c3_counterexample :
    delete_data ⟨true, false, false, true, "eb0"⟩
        ⟨[], [⟨5, "done", "transferred", 0, 0, "eb0",
          [⟨"raw_records", "daq", "/p1"⟩, ⟨"raw_records", "eb0", "/p2"⟩],
          []⟩], 3, [], 0, 0⟩
        ⟨5, "done", "transferred", 0, 0, "eb0",
          [⟨"raw_records", "daq", "/p1"⟩, ⟨"raw_records", "eb0", "/p2"⟩],
          []⟩
        "/p1" "raw_records" false false "manual" =
      (⟨[], [⟨5, "done", "transferred", 0, 0, "eb0", [],
        [⟨"raw_records", "daq", 3, "ajax.eb0", "manual"⟩]⟩], 4, [], 0, 0⟩,
       none) := by
  rfl

/-- C3 amended: in confirmed real-execution mode with the path absent, the
registry mutation of `delete_data` is one atomic per-record update that
appends a single deletion record (derived from the first matching entry,
with the caller reason verbatim) and removes every `locations` entry whose
type is the deleted type and whose host is the shared host `daq` or the
local host — possibly more than one — leaving all other entries unchanged;
in Scenario B (one matching host-local raw entry plus a shared-tier live
entry) exactly the raw entry is removed and one record is appended. -/
theorem c3_registry_update :
    (∀ args st rd path dt ign reason' d,
      path ∉ st.fs →
      guardFails rd dt ign = false →
      rd.data.find? (ddocMatch dt args.hostname) = some d →
      args.production = true →
      confirm args = true →
      (delete_data args st rd path dt false ign reason').2 = none ∧
      (delete_data args st rd path dt false ign reason').1.reg =
        update_rundoc st.reg rd.number
          (applyPull dt args.hostname
            ⟨d.dtype, d.host, st.clock, "ajax." ++ args.hostname,
              reason'⟩) ∧
      (⟨d.dtype, d.host, st.clock, "ajax." ++ args.hostname,
        reason'⟩ : DeletedDoc).reason = reason') ∧
    (∀ dt hn recDoc r (d : DDoc),
      d ∈ (applyPull dt hn recDoc r).data ↔
        d ∈ r.data ∧ ¬(d.dtype = dt ∧ (d.host = "daq" ∨ d.host = hn))) ∧
    (∀ dt hn recDoc r,
      recDoc ∈ (applyPull dt hn recDoc r).deleted_data ∧
      ∀ x ∈ r.deleted_data, x ∈ (applyPull dt hn recDoc r).deleted_data) ∧
    (delete_data ⟨true, false, false, true, "eb1"⟩
        ⟨[], [⟨24399, "done", "transferred", -200000, -50000, "eb1",
          [⟨"raw_records", "eb1", "/data/eb1/24399-raw"⟩,
           ⟨"live", "daq", "/live_data/xenonnt"⟩], []⟩], 7, [], 0, 0⟩
        ⟨24399, "done", "transferred", -200000, -50000, "eb1",
          [⟨"raw_records", "eb1", "/data/eb1/24399-raw"⟩,
           ⟨"live", "daq", "/live_data/xenonnt"⟩], []⟩
        "/data/eb1/24399-raw" "raw_records" false false "scenario b" =
      (⟨[], [⟨24399, "done", "transferred", -200000, -50000, "eb1",
        [⟨"live", "daq", "/live_data/xenonnt"⟩],
        [⟨"raw_records", "eb1", 7, "ajax.eb1", "scenario b"⟩]⟩],
        8, [], 0, 0⟩, none)) := by
  refine ⟨?_, applyPull_mem, applyPull_deleted, by rfl⟩
  intro args st rd path dt ign reason' d hpath hgf hfind hprod hconf
  rw [delete_data_update args st rd path dt ign reason' d hpath hgf hfind
    hprod hconf]
  exact ⟨rfl, rfl, rfl⟩

theorem c3_registry_update_witness :
    ((delete_data ⟨true, false, false, true, "eb1"⟩
        ⟨[], [⟨24399, "done", "transferred", 0, 0, "eb1",
          [⟨"raw_records", "eb1", "/d"⟩, ⟨"live", "daq", "/l"⟩], []⟩],
          0, [], 0, 0⟩
        ⟨24399, "done", "transferred", 0, 0, "eb1",
          [⟨"raw_records", "eb1", "/d"⟩, ⟨"live", "daq", "/l"⟩], []⟩
        "/d" "raw_records" false false "why not").2 = none) ∧
    ((⟨"live", "daq", "/l"⟩ : DDoc) ∈
      (applyPull "raw_records" "eb1"
        ⟨"raw_records", "eb1", 0, "ajax.eb1", "why not"⟩
        ⟨24399, "done", "transferred", 0, 0, "eb1",
          [⟨"raw_records", "eb1", "/d"⟩, ⟨"live", "daq", "/l"⟩],
          []⟩).data) := by
  constructor
  · exact (c3_registry_update.1 ⟨true, false, false, true, "eb1"⟩
      ⟨[], [⟨24399, "done", "transferred", 0, 0, "eb1",
        [⟨"raw_records", "eb1", "/d"⟩, ⟨"live", "daq", "/l"⟩], []⟩],
        0, [], 0, 0⟩
      ⟨24399, "done", "transferred", 0, 0, "eb1",
        [⟨"raw_records", "eb1", "/d"⟩, ⟨"live", "daq", "/l"⟩], []⟩
      "/d" "raw_records" false "why not" ⟨"raw_records", "eb1", "/d"⟩
      (by decide) (by decide) (by decide) rfl rfl).1
  · exact (c3_registry_update.2.1 "raw_records" "eb1"
      ⟨"raw_records", "eb1", 0, "ajax.eb1", "why not"⟩
      ⟨24399, "done", "transferred", 0, 0, "eb1",
        [⟨"raw_records", "eb1", "/d"⟩, ⟨"live", "daq", "/l"⟩], []⟩
      ⟨"live", "daq", "/l"⟩).mpr (by decide)

/-! Claim C4: behaviour when the path is already absent. -/

/-- C4 counterexample: with the target path absent throughout, the first
`delete_data` call correctly moves the matching raw entry into
`deleted_data`; but repeating the call on the updated record is not an
"already absent" no-op: the entry-finding loop falls through to the LAST
remaining `data` entry (the live one) and the update appends a second,
spurious deletion record derived from it, so the registry is mutated
twice. -/
theorem c4_counterexample :
    delete_data ⟨true, false, false, true, "eb0"⟩
        ⟨[], [⟨1, "done", "transferred", 0, 0, "eb0",
          [⟨"raw_records", "eb0", "/p"⟩, ⟨"live", "daq", "/q"⟩], []⟩],
          0, [], 0, 0⟩
        ⟨1, "done", "transferred", 0, 0, "eb0",
          [⟨"raw_records", "eb0", "/p"⟩, ⟨"live", "daq", "/q"⟩], []⟩
        "/p" "raw_records" false false "manual" =
      (⟨[], [⟨1, "done", "transferred", 0, 0, "eb0",
        [⟨"live", "daq", "/q"⟩],
        [⟨"raw_records", "eb0", 0, "ajax.eb0", "manual"⟩]⟩],
        1, [], 0, 0⟩, none) ∧
    delete_data ⟨true, false, false, true, "eb0"⟩
        ⟨[], [⟨1, "done", "transferred", 0, 0, "eb0",
          [⟨"live", "daq", "/q"⟩],
          [⟨"raw_records", "eb0", 0, "ajax.eb0", "manual"⟩]⟩],
          1, [], 0, 0⟩
        ⟨1, "done", "transferred", 0, 0, "eb0",
          [⟨"live", "daq", "/q"⟩],
          [⟨"raw_records", "eb0", 0, "ajax.eb0", "manual"⟩]⟩
        "/p" "raw_records" false false "manual" =
      (⟨[], [⟨1, "done", "transferred", 0, 0, "eb0",
        [⟨"live", "daq", "/q"⟩],
        [⟨"raw_records", "eb0", 0, "ajax.eb0", "manual"⟩,
         ⟨"live", "daq", 1, "ajax.eb0", "manual"⟩]⟩],
        2, [], 0, 0⟩, none) := by
  exact ⟨rfl, rfl⟩

/-- C4 amended: when the path is absent and the guard passes, the first
invocation (a matching `locations` entry still present) raises no error,
touches no file, and performs exactly the one move-to-history update; the
operation is not idempotent, though: a repeated invocation with no
matching entry left appends a further record derived from the LAST
remaining `locations` entry instead of being a no-op, and with `locations`
empty it raises a NameError (the Python loop variable is unbound). -/
theorem c4_already_absent :
    (∀ args st rd path dt ign reason' d,
      path ∉ st.fs →
      guardFails rd dt ign = false →
      rd.data.find? (ddocMatch dt args.hostname) = some d →
      args.production = true →
      confirm args = true →
      (delete_data args st rd path dt false ign reason').2 = none ∧
      (delete_data args st rd path dt false ign reason').1.fs = st.fs ∧
      (delete_data args st rd path dt false ign reason').1.reg =
        update_rundoc st.reg rd.number
          (applyPull dt args.hostname
            ⟨d.dtype, d.host, st.clock, "ajax." ++ args.hostname,
              reason'⟩)) ∧
    (∀ args st rd path dt ign reason' d,
      path ∉ st.fs →
      guardFails rd dt ign = false →
      rd.data.find? (ddocMatch dt args.hostname) = none →
      rd.data.getLast? = some d →
      args.production = true →
      confirm args = true →
      (delete_data args st rd path dt false ign reason').2 = none ∧
      (delete_data args st rd path dt false ign reason').1.reg =
        update_rundoc st.reg rd.number
          (applyPull dt args.hostname
            ⟨d.dtype, d.host, st.clock, "ajax." ++ args.hostname,
              reason'⟩)) ∧
    (∀ args st rd path dt ign reason',
      path ∉ st.fs →
      guardFails rd dt ign = false →
      rd.data = [] →
      delete_data args st rd path dt false ign reason' =
        (st, some .nameError)) := by
  refine ⟨?_, ?_, ?_⟩
  · intro args st rd path dt ign reason' d hpath hgf hfind hprod hconf
    rw [delete_data_update args st rd path dt ign reason' d hpath hgf
      hfind hprod hconf]
    exact ⟨rfl, rfl, rfl⟩
  · intro args st rd path dt ign reason' d hpath hgf hfind hlast hprod hconf
    rw [delete_data_fallback args st rd path dt ign reason' d hpath hgf
      hfind hlast hprod hconf]
    exact ⟨rfl, rfl⟩
  · intro args st rd path dt ign reason' hpath hgf hempty
    exact delete_data_empty_data args st rd path dt ign reason' hpath hgf
      hempty

theorem c4_already_absent_witness :
    ((delete_data ⟨true, false, false, true, "eb1"⟩
        ⟨[], [⟨3, "done", "transferred", 0, 0, "eb1",
          [⟨"peaks", "eb1", "/pk"⟩, ⟨"live", "daq", "/l"⟩], []⟩],
          0, [], 0, 0⟩
        ⟨3, "done", "transferred", 0, 0, "eb1",
          [⟨"peaks", "eb1", "/pk"⟩, ⟨"live", "daq", "/l"⟩], []⟩
        "/pk" "peaks" false false "r").2 = none) ∧
    (delete_data ⟨true, false, false, true, "eb1"⟩
        ⟨[], [], 0, [], 0, 0⟩
        ⟨4, "done", "transferred", 0, 0, "eb1", [], []⟩
        "/x" "peaks" false true "r" =
      (⟨[], [], 0, [], 0, 0⟩, some .nameError)) := by
  constructor
  · exact (c4_already_absent.1 ⟨true, false, false, true, "eb1"⟩
      ⟨[], [⟨3, "done", "transferred", 0, 0, "eb1",
        [⟨"peaks", "eb1", "/pk"⟩, ⟨"live", "daq", "/l"⟩], []⟩],
        0, [], 0, 0⟩
      ⟨3, "done", "transferred", 0, 0, "eb1",
        [⟨"peaks", "eb1", "/pk"⟩, ⟨"live", "daq", "/l"⟩], []⟩
      "/pk" "peaks" false "r" ⟨"peaks", "eb1", "/pk"⟩
      (by decide) (by decide) (by decide) rfl rfl).1
  · exact c4_already_absent.2.2 ⟨true, false, false, true, "eb1"⟩
      ⟨[], [], 0, [], 0, 0⟩
      ⟨4, "done", "transferred", 0, 0, "eb1", [], []⟩
      "/x" "peaks" true "r" (by decide) (by decide) rfl

/-! Claim C5: the recursive shared-tier-cleanup drive. -/

/-- Entries removed by pulling live data: type `live`, host `daq` or the
local host. -/
def liveMatch (hn : String) (d : DDoc) : Bool :=
  d.dtype == "live" && (d.host == "daq" || d.host == hn)

/-- Safety shape needed for a matching run to actually disappear from the
`clean_ceph` query after its removal pass: its live entries all sit on the
shared host `daq`, its `daq` entries are all live data, and it either has
a registered raw copy or the force flag is set. -/
def cephSafe (force : Bool) (r : RunDoc) : Prop :=
  (∀ d ∈ r.data, d.dtype = "live" → d.host = "daq") ∧
  (∀ d ∈ r.data, d.host = "daq" → d.dtype = "live") ∧
  (force = true ∨ 1 ≤ r.data.countP (fun d => d.dtype == "raw_records"))

instance (force : Bool) (r : RunDoc) : Decidable (cephSafe force r) := by
  unfold cephSafe
  infer_instance

theorem find?_decomp {α : Type} (p : α → Bool) (l : List α) (a : α)
    (h : l.find? p = some a) :
    ∃ A B, l = A ++ a :: B ∧ ∀ x ∈ A, p x = false := by
  induction l with
  | nil => simp [List.find?] at h
  | cons x xs ih =>
    by_cases hpx : p x = true
    · rw [List.find?_cons_of_pos _ hpx] at h
      obtain rfl : x = a := by injection h
      exact ⟨[], xs, rfl, by simp⟩
    · simp only [Bool.not_eq_true] at hpx
      rw [List.find?_cons_of_neg _ (by simp [hpx])] at h
      obtain ⟨A, B, hl, hA⟩ := ih h
      refine ⟨x :: A, B, by rw [List.cons_append, hl], ?_⟩
      intro y hy
      rcases List.mem_cons.mp hy with rfl | hy'
      · exact hpx
      · exact hA y hy'

theorem find?_append_first {α : Type} (p : α → Bool) (A B : List α)
    (a : α) (hA : ∀ x ∈ A, p x = false) (ha : p a = true) :
    (A ++ a :: B).find? p = some a := by
  induction A with
  | nil => simpa using List.find?_cons_of_pos B ha
  | cons x l ih =>
    rw [List.cons_append,
      List.find?_cons_of_neg _ (by simp [hA x (List.mem_cons_self x l)])]
    exact ih (fun y hy => hA y (List.mem_cons_of_mem x hy))

theorem nodup_split (A B : List RunDoc) (rd : RunDoc)
    (h : ((A ++ rd :: B).map RunDoc.number).Nodup) :
    (∀ a ∈ A, a.number ≠ rd.number) ∧
    (∀ b ∈ B, b.number ≠ rd.number) := by
  rw [List.map_append, List.map_cons, List.nodup_append] at h
  obtain ⟨hA, hB, hdisj⟩ := h
  constructor
  · intro a ha heq
    exact hdisj (List.mem_map_of_mem RunDoc.number ha)
      (by rw [heq]; exact List.mem_cons_self _ _)
  · intro b hb heq
    have hnotin := (List.nodup_cons.mp hB).1
    exact hnotin (by rw [← heq]; exact List.mem_map_of_mem RunDoc.number hb)

theorem update_rundoc_append (A B : List RunDoc) (r : RunDoc)
    (f : RunDoc → RunDoc) (hA : ∀ a ∈ A, a.number ≠ r.number) :
    update_rundoc (A ++ r :: B) r.number f = A ++ f r :: B := by
  induction A with
  | nil => simp [update_rundoc]
  | cons a l ih =>
    rw [List.cons_append]
    show (if a.number = r.number then f a :: (l ++ r :: B)
      else a :: update_rundoc (l ++ r :: B) r.number f) = _
    rw [if_neg (hA a (List.mem_cons_self a l)),
      ih (fun x hx => hA x (List.mem_cons_of_mem a hx))]
    rfl

theorem filter_self_idem {α : Type} (p : α → Bool) (l : List α) :
    (l.filter p).filter p = l.filter p := by
  rw [List.filter_filter]
  apply List.filter_congr
  intro a _
  exact Bool.and_self (p a)

/-- Full behaviour of a confirmed production-mode `delete_data` whose guard
passes and whose rundoc has a matching entry: the path is removed from the
filesystem when present, the clock ticks, and the atomic pull-and-append
update is applied — and nothing is raised. -/
theorem delete_data_prod_exec (args : Args) (st : DState) (rd : RunDoc)
    (path dt : String) (ign : Bool) (reason' : String) (d : DDoc)
    (hgf : guardFails rd dt ign = false)
    (hfind : rd.data.find? (ddocMatch dt args.hostname) = some d)
    (hprod : args.production = true)
    (hconf : confirm args = true) :
    delete_data args st rd path dt false ign reason' =
      ({ st with
          fs := if path ∈ st.fs then st.fs.filter (fun p => p ≠ path)
            else st.fs,
          clock := st.clock + 1,
          reg := update_rundoc st.reg rd.number
            (applyPull dt args.hostname
              ⟨d.dtype, d.host, st.clock, "ajax." ++ args.hostname,
                reason'⟩) }, none) := by
  by_cases hmem : path ∈ st.fs
  · have hgfn : ¬(guardFails rd dt ign = true) := by simp [hgf]
    have hmain : delete_data args st rd path dt false ign reason' =
        (match dd_remove_phase args
            (if guardFails rd dt ign then logWarning st "fatal" else st)
            path false with
         | (st2, some e) => (st2, some e)
         | (st2, none) =>
           dd_rundoc_phase args st2 rd path dt false reason') := by
      simp only [delete_data, eq_self_iff_true, and_true, if_neg hgfn]
    have h1 : (if guardFails rd dt ign then logWarning st "fatal"
        else st) = st := by
      rw [hgf]
      simp
    have h2 : dd_remove_phase args st path false =
        ({ st with fs := st.fs.filter (fun p => p ≠ path) }, none) := by
      unfold dd_remove_phase rmtreeModel
      rw [if_pos ⟨hmem, rfl⟩, if_pos hprod, if_pos hconf]
    rw [hmain, h1, h2]
    show dd_rundoc_phase args
      { st with fs := st.fs.filter (fun p => p ≠ path) }
      rd path dt false reason' = _
    have hnot : path ∉ st.fs.filter (fun p => p ≠ path) := by
      simp [List.mem_filter]
    unfold dd_rundoc_phase
    rw [if_neg hnot, hfind]
    simp [Option.orElse, hprod, hconf, if_pos hmem]
  · rw [delete_data_update args st rd path dt ign reason' d hmem hgf hfind
      hprod hconf]
    rw [if_neg hmem]

/-- Effect of one threaded shared-tier deletion in confirmed production
mode: one more thread alive, clock tick, path gone, and the atomic
pull-and-append applied to the run. -/
theorem threaded_good_effect (args : Args) (s0 : DState) (rd : RunDoc)
    (loc dt : String) (ign : Bool) (reason' : String) (d' : DDoc)
    (hgf : guardFails rd dt ign = false)
    (hfind : rd.data.find? (ddocMatch dt args.hostname) = some d')
    (hprod : args.production = true)
    (hconf : confirm args = true) :
    threaded_delete_data args s0 rd loc dt false ign reason' =
      { s0 with
          fs := if loc ∈ s0.fs then s0.fs.filter (fun p => p ≠ loc)
            else s0.fs,
          clock := s0.clock + 1,
          alive := s0.alive + 1,
          peak := max s0.peak (s0.alive + 1),
          reg := update_rundoc s0.reg rd.number
            (applyPull dt args.hostname
              ⟨d'.dtype, d'.host, s0.clock, "ajax." ++ args.hostname,
                reason'⟩) } := by
  show (delete_data args
      { s0 with alive := s0.alive + 1, peak := max s0.peak (s0.alive + 1) }
      rd loc dt false ign reason').1 = _
  rw [delete_data_prod_exec args
    { s0 with alive := s0.alive + 1, peak := max s0.peak (s0.alive + 1) }
    rd loc dt ign reason' d' hgf hfind hprod hconf]

/-- Walking the snapshot entries of a matching run with `delete_live` set:
no exception is raised, only the run itself is updated in the registry,
and once a `daq`-hosted entry has been processed the run holds no live
entries any more. -/
theorem rrfh_fold_live (args : Args) (rd : RunDoc) (force : Bool)
    (reason' : String)
    (hprod : args.production = true) (hac : args.ask_confirm = false)
    (hhn : args.hostname ≠ "daq")
    (hnl : 1 ≤ liveCopies rd)
    (hcond : force = true ∨ 1 ≤ durableCopies rd)
    (hdaqlive : ∀ d ∈ rd.data, d.host = "daq" → d.dtype = "live") :
    ∀ (todo : List DDoc), (∀ d ∈ todo, d ∈ rd.data) →
    ∀ (A B : List RunDoc), (∀ a ∈ A, a.number ≠ rd.number) →
    ∀ (cur : RunDoc), cur.number = rd.number →
    (cur.data = rd.data ∨
      cur.data = rd.data.filter (fun x => !liveMatch args.hostname x)) →
    ∀ (fs : List String) (cl : Nat) (wl : List String) (al pk : Nat),
    (todo.foldl
        (rrfh_step args rd true force reason' (liveCopies rd)
          (durableCopies rd))
        (⟨fs, A ++ cur :: B, cl, wl, al, pk⟩, none)).2 = none ∧
    ∃ fs' cl' wl' al' pk' cur',
      (todo.foldl
        (rrfh_step args rd true force reason' (liveCopies rd)
          (durableCopies rd))
        (⟨fs, A ++ cur :: B, cl, wl, al, pk⟩, none)).1 =
        ⟨fs', A ++ cur' :: B, cl', wl', al', pk'⟩ ∧
      cur'.number = rd.number ∧
      (cur'.data = cur.data ∨
        cur'.data = rd.data.filter (fun x => !liveMatch args.hostname x)) ∧
      ((∃ d ∈ todo, d.host = "daq") →
        cur'.data = rd.data.filter (fun x => !liveMatch args.hostname x)) := by
  have hconf : confirm args = true := by simp [confirm, hac]
  intro todo
  induction todo with
  | nil =>
    intro _ A B hA cur hnum hdata fs cl wl al pk
    refine ⟨rfl, fs, cl, wl, al, pk, cur, rfl, hnum, Or.inl rfl, ?_⟩
    rintro ⟨d, hd, _⟩
    exact absurd hd (List.not_mem_nil d)
  | cons d todo ih =>
    intro hsub A B hA cur hnum hdata fs cl wl al pk
    have hd_mem : d ∈ rd.data := hsub d (List.mem_cons_self _ _)
    have hsub' : ∀ x ∈ todo, x ∈ rd.data :=
      fun x hx => hsub x (List.mem_cons_of_mem d hx)
    rw [List.foldl_cons]
    by_cases hhost : d.host = args.hostname
    · have hstep : rrfh_step args rd true force reason' (liveCopies rd)
          (durableCopies rd) (⟨fs, A ++ cur :: B, cl, wl, al, pk⟩, none)
          d = (⟨fs, A ++ cur :: B, cl, wl, al, pk⟩, none) := by
        show rrfh_body args rd true force reason' (liveCopies rd)
          (durableCopies rd) ⟨fs, A ++ cur :: B, cl, wl, al, pk⟩ d = _
        unfold rrfh_body
        rw [if_pos hhost]
        simp
      rw [hstep]
      obtain ⟨he, fs', cl', wl', al', pk', cur', heq, hn', hdisj, hdaqc⟩ :=
        ih hsub' A B hA cur hnum hdata fs cl wl al pk
      refine ⟨he, fs', cl', wl', al', pk', cur', heq, hn', hdisj, ?_⟩
      rintro ⟨x, hx, hxdaq⟩
      rcases List.mem_cons.mp hx with rfl | hx'
      · exact absurd (hhost.symm.trans hxdaq) hhn
      · exact hdaqc ⟨x, hx', hxdaq⟩
    · by_cases hdaq : d.host = "daq"
      · have hd_live : d.dtype = "live" := hdaqlive d hd_mem hdaq
        have hcnd : ¬(force = false ∧ durableCopies rd = 0) := by
          rintro ⟨hf, hz⟩
          rcases hcond with hc | hc
          · rw [hf] at hc
            exact Bool.noConfusion hc
          · omega
        have hfind : ∃ d', rd.data.find? (ddocMatch d.dtype args.hostname) =
            some d' := by
          have hsome : (rd.data.find?
              (ddocMatch d.dtype args.hostname)).isSome := by
            rw [List.find?_isSome]
            exact ⟨d, hd_mem, by simp [ddocMatch, hdaq]⟩
          exact Option.isSome_iff_exists.mp hsome
        obtain ⟨d', hd'⟩ := hfind
        have hgf : guardFails rd d.dtype force = false := by
          cases force
          · simp [guardFails, check_eq_counts, hnl]
          · simp [guardFails]
        have hA' : ∀ a ∈ A, a.number ≠ cur.number := by
          intro a ha
          rw [hnum]
          exact hA a ha
        have hstep : rrfh_step args rd true force reason' (liveCopies rd)
            (durableCopies rd)
            (⟨fs, A ++ cur :: B, cl, wl, al, pk⟩, none) d =
            (⟨(if (d.location ++ "/" ++ runIdStr rd.number) ∈ fs then
                fs.filter (fun p =>
                  p ≠ d.location ++ "/" ++ runIdStr rd.number)
              else fs),
              A ++ applyPull d.dtype args.hostname
                ⟨d'.dtype, d'.host, cl, "ajax." ++ args.hostname, reason'⟩
                cur :: B,
              cl + 1, wl, al + 1, max pk (al + 1)⟩, none) := by
          show rrfh_body args rd true force reason' (liveCopies rd)
            (durableCopies rd) ⟨fs, A ++ cur :: B, cl, wl, al, pk⟩ d = _
          unfold rrfh_body
          rw [if_neg hhost, if_pos hdaq, if_neg (by simp), if_neg hcnd]
          have hbranch :
              (if force = false then
                (threaded_delete_data args
                  ⟨fs, A ++ cur :: B, cl, wl, al, pk⟩ rd
                  (d.location ++ "/" ++ runIdStr rd.number) d.dtype
                  (!args.production) false reason',
                  (none : Option AjaxErr))
              else
                (threaded_delete_data args
                  ⟨fs, A ++ cur :: B, cl, wl, al, pk⟩ rd
                  (d.location ++ "/" ++ runIdStr rd.number) d.dtype
                  (!args.production) true reason', none)) =
              (threaded_delete_data args
                ⟨fs, A ++ cur :: B, cl, wl, al, pk⟩ rd
                (d.location ++ "/" ++ runIdStr rd.number) d.dtype
                false force reason', none) := by
            cases force <;> simp [hprod]
          rw [hbranch,
            threaded_good_effect args ⟨fs, A ++ cur :: B, cl, wl, al, pk⟩
              rd (d.location ++ "/" ++ runIdStr rd.number) d.dtype force
              reason' d' hgf hd' hprod hconf]
          rw [show (⟨fs, A ++ cur :: B, cl, wl, al, pk⟩ : DState).reg =
            A ++ cur :: B from rfl]
          rw [← hnum, update_rundoc_append A B cur _ hA']
        rw [hstep]
        have hnum2 : (applyPull d.dtype args.hostname
            ⟨d'.dtype, d'.host, cl, "ajax." ++ args.hostname, reason'⟩
            cur).number = rd.number := by
          rw [← hnum]
          rfl
        have hdata2 : (applyPull d.dtype args.hostname
            ⟨d'.dtype, d'.host, cl, "ajax." ++ args.hostname, reason'⟩
            cur).data =
            rd.data.filter (fun x => !liveMatch args.hostname x) := by
          show cur.data.filter (fun x =>
            !(x.dtype == d.dtype &&
              (x.host == "daq" || x.host == args.hostname))) = _
          rw [hd_live]
          show cur.data.filter (fun x => !liveMatch args.hostname x) = _
          rcases hdata with hcd | hcd
          · rw [hcd]
          · rw [hcd]
            exact filter_self_idem _ _
        obtain ⟨he, fs', cl', wl', al', pk', cur', heq, hn', hdisj, hdaqc⟩ :=
          ih hsub' A B hA _ hnum2 (Or.inr hdata2) _ (cl + 1) wl (al + 1)
            (max pk (al + 1))
        refine ⟨he, fs', cl', wl', al', pk', cur', heq, hn', ?_, ?_⟩
        · rcases hdisj with hc | hc
          · exact Or.inr (hc.trans hdata2)
          · exact Or.inr hc
        · intro _
          rcases hdisj with hc | hc
          · exact hc.trans hdata2
          · exact hc
      · have hstep : rrfh_step args rd true force reason' (liveCopies rd)
            (durableCopies rd)
            (⟨fs, A ++ cur :: B, cl, wl, al, pk⟩, none) d =
            (⟨fs, A ++ cur :: B, cl, wl, al, pk⟩, none) := by
          show rrfh_body args rd true force reason' (liveCopies rd)
            (durableCopies rd) ⟨fs, A ++ cur :: B, cl, wl, al, pk⟩ d = _
          unfold rrfh_body
          rw [if_neg hhost, if_neg hdaq]
        rw [hstep]
        obtain ⟨he, fs', cl', wl', al', pk', cur', heq, hn', hdisj, hdaqc⟩ :=
          ih hsub' A B hA cur hnum hdata fs cl wl al pk
        refine ⟨he, fs', cl', wl', al', pk', cur', heq, hn', hdisj, ?_⟩
        rintro ⟨x, hx, hxdaq⟩
        rcases List.mem_cons.mp hx with rfl | hx'
        · exact absurd hxdaq hdaq
        · exact hdaqc ⟨x, hx', hxdaq⟩

/-- With `delete_live` set, the per-entry body never raises synchronously:
local-host entries are skipped and shared-tier deletions run in threads
that swallow their own exceptions. -/
theorem rrfh_fold_live_noerr (args : Args) (rd : RunDoc) (force : Bool)
    (reason' : String) (hl hr : Nat) (l : List DDoc) (st : DState) :
    (l.foldl (rrfh_step args rd true force reason' hl hr)
      (st, none)).2 = none := by
  induction l generalizing st with
  | nil => rfl
  | cons d l ih =>
    rw [List.foldl_cons]
    have hstep : ∃ st', rrfh_step args rd true force reason' hl hr
        (st, none) d = (st', none) := by
      show ∃ st', rrfh_body args rd true force reason' hl hr st d =
        (st', none)
      unfold rrfh_body
      by_cases h1 : d.host = args.hostname
      · rw [if_pos h1]
        exact ⟨st, by simp⟩
      · rw [if_neg h1]
        by_cases h2 : d.host = "daq"
        · rw [if_pos h2, if_neg (by simp : ¬((true : Bool) = false))]
          split
          · exact ⟨_, rfl⟩
          · split
            · exact ⟨_, rfl⟩
            · exact ⟨_, rfl⟩
        · rw [if_neg h2]
          exact ⟨st, rfl⟩
    obtain ⟨st', hst⟩ := hstep
    rw [hst]
    exact ih st'

theorem remove_run_live_noerr (args : Args) (st : DState) (n : Nat)
    (force : Bool) (reason' : String) :
    (remove_run_from_host args st n true force reason').2 = none := by
  unfold remove_run_from_host
  split
  · rfl
  · exact rrfh_fold_live_noerr args _ force reason' _ _ _ st

/-- Net effect of `remove_run_from_host` with `delete_live` on a well-shaped
matching run sitting at a known registry position: no exception, only that
run updated, and its live entries all gone. -/
theorem remove_run_live_effect (args : Args) (A B : List RunDoc)
    (rd : RunDoc) (fs : List String) (cl : Nat) (wl : List String)
    (al pk : Nat) (force : Bool) (reason' : String)
    (hprod : args.production = true) (hac : args.ask_confirm = false)
    (hhn : args.hostname ≠ "daq")
    (hA : ∀ a ∈ A, a.number ≠ rd.number)
    (hsafe : cephSafe force rd)
    (hlivee : ∃ d ∈ rd.data, d.dtype = "live") :
    (remove_run_from_host args ⟨fs, A ++ rd :: B, cl, wl, al, pk⟩
        rd.number true force reason').2 = none ∧
    ∃ fs' cl' wl' al' pk' cur',
      (remove_run_from_host args ⟨fs, A ++ rd :: B, cl, wl, al, pk⟩
        rd.number true force reason').1 =
        ⟨fs', A ++ cur' :: B, cl', wl', al', pk'⟩ ∧
      cur'.number = rd.number ∧
      cur'.data = rd.data.filter (fun x => !liveMatch args.hostname x) := by
  obtain ⟨d0, hd0mem, hd0live⟩ := hlivee
  have hd0daq : d0.host = "daq" := hsafe.1 d0 hd0mem hd0live
  have hnl : 1 ≤ liveCopies rd := by
    have : 0 < rd.data.countP (fun d => d.dtype == "live") :=
      List.countP_pos_iff.mpr ⟨d0, hd0mem, by simp [hd0live]⟩
    exact this
  have hfq : (A ++ rd :: B).find? (fun r =>
      r.number == rd.number &&
      r.data.any (fun d => d.host == "daq")) = some rd := by
    apply find?_append_first
    · intro x hx
      have hne : (x.number == rd.number) = false := by
        simp [hA x hx]
      simp [hne]
    · have hany : rd.data.any (fun d => d.host == "daq") = true := by
        rw [List.any_eq_true]
        exact ⟨d0, hd0mem, by simp [hd0daq]⟩
      simp [hany]
  have hmain : remove_run_from_host args
      ⟨fs, A ++ rd :: B, cl, wl, al, pk⟩ rd.number true force reason' =
      rd.data.foldl
        (rrfh_step args rd true force reason' (liveCopies rd)
          (durableCopies rd))
        (⟨fs, A ++ rd :: B, cl, wl, al, pk⟩, none) := by
    unfold remove_run_from_host
    simp only [eq_self_iff_true, if_true, hfq, check_eq_counts]
  rw [hmain]
  have hfold := rrfh_fold_live args rd force reason' hprod hac hhn hnl
    hsafe.2.2 hsafe.2.1 rd.data (fun d hd => hd) A B hA rd rfl
    (Or.inl rfl) fs cl wl al pk
  obtain ⟨he, fs', cl', wl', al', pk', cur', heq, hn', _, hdaqc⟩ := hfold
  refine ⟨he, fs', cl', wl', al', pk', cur', heq, hn',
    hdaqc ⟨d0, hd0mem, hd0daq⟩⟩

/-- The filtered run holds no live entry any more, so it no longer matches
the `clean_ceph` selection. -/
theorem filtered_not_match (args : Args) (nowT : Int) (rd cur' : RunDoc)
    (hdata : cur'.data =
      rd.data.filter (fun x => !liveMatch args.hostname x))
    (hlive : ∀ d ∈ rd.data, d.dtype = "live" → d.host = "daq") :
    cleanCephQuery nowT cur' = false := by
  have hany : cur'.data.any (fun d => d.dtype == "live") = false := by
    rw [hdata]
    by_contra hc
    simp only [Bool.not_eq_false, List.any_eq_true] at hc
    obtain ⟨x, hx, hxlive⟩ := hc
    rw [List.mem_filter] at hx
    obtain ⟨hxmem, hxcond⟩ := hx
    simp only [beq_iff_eq] at hxlive
    have hxdaq : x.host = "daq" := hlive x hxmem hxlive
    simp [liveMatch, hxlive, hxdaq] at hxcond
  simp [cleanCephQuery, hany]

/-- Real-execution behaviour of the recursive `clean_ceph` drive, by
induction on the number of runs still matching the selection. -/
theorem clean_ceph_real (n : Nat) :
    ∀ (args : Args) (nowT : Int) (st : DState) (fuel : Nat),
    args.production = true → args.ask_confirm = false →
    args.hostname = ebCanCleanCeph →
    (st.reg.map RunDoc.number).Nodup →
    (∀ r ∈ st.reg, cleanCephQuery nowT r = true → cephSafe args.force r) →
    st.reg.countP (cleanCephQuery nowT) = n →
    n < fuel →
    (clean_ceph args nowT fuel st).deletions = n ∧
    (clean_ceph args nowT fuel st).finished = true ∧
    (clean_ceph args nowT fuel st).err = none ∧
    (clean_ceph args nowT fuel st).st.reg.find? (cleanCephQuery nowT) =
      none := by
  induction n with
  | zero =>
    intro args nowT st fuel hprod hac hhost hnd hsafe hcount hfuel
    obtain ⟨f, rfl⟩ : ∃ f, fuel = f + 1 := ⟨fuel - 1, by omega⟩
    have hfind : st.reg.find? (cleanCephQuery nowT) = none := by
      rw [List.find?_eq_none]
      intro x hx hq
      exact (List.countP_eq_zero.mp hcount x hx) hq
    unfold clean_ceph
    rw [if_neg (fun hne => hne hhost), hfind]
    exact ⟨rfl, rfl, rfl, hfind⟩
  | succ n ih =>
    intro args nowT st fuel hprod hac hhost hnd hsafe hcount hfuel
    obtain ⟨f, rfl⟩ : ∃ f, fuel = f + 1 := ⟨fuel - 1, by omega⟩
    obtain ⟨fs, reg, cl, wl, al, pk⟩ := st
    simp only at hnd hsafe hcount ⊢
    have hpos : 0 < reg.countP (cleanCephQuery nowT) := by
      rw [hcount]
      omega
    obtain ⟨rd0, hrd0mem, hq0⟩ := List.countP_pos_iff.mp hpos
    have hsome : (reg.find? (cleanCephQuery nowT)).isSome :=
      List.find?_isSome.mpr ⟨rd0, hrd0mem, hq0⟩
    obtain ⟨rd, hfind⟩ := Option.isSome_iff_exists.mp hsome
    have hqrd : cleanCephQuery nowT rd = true := List.find?_some hfind
    have hrdmem : rd ∈ reg := List.mem_of_find?_eq_some hfind
    obtain ⟨A, B, hreg, hAq⟩ := find?_decomp _ _ _ hfind
    subst hreg
    obtain ⟨hAn, hBn⟩ := nodup_split A B rd hnd
    have hsafe_rd := hsafe rd hrdmem hqrd
    have hlivee : ∃ d ∈ rd.data, d.dtype = "live" := by
      have hq := hqrd
      unfold cleanCephQuery at hq
      simp only [Bool.and_eq_true] at hq
      have := hq.2
      rw [List.any_eq_true] at this
      obtain ⟨d, hd, hdt⟩ := this
      exact ⟨d, hd, by simpa using hdt⟩
    have hhn : args.hostname ≠ "daq" := by
      rw [hhost]
      unfold ebCanCleanCeph
      decide
    have heff := remove_run_live_effect args A B rd fs cl wl al pk
      args.force "clean ceph" hprod hac hhn hAn hsafe_rd hlivee
    obtain ⟨he, fs', cl', wl', al', pk', cur', hshape, hn', hdata'⟩ := heff
    have hnolive := filtered_not_match args nowT rd cur' hdata' hsafe_rd.1
    -- now unfold one step of clean_ceph
    unfold clean_ceph
    rw [if_neg (fun hne => hne hhost)]
    rw [show ((⟨fs, A ++ rd :: B, cl, wl, al, pk⟩ : DState)).reg =
      A ++ rd :: B from rfl, hfind]
    rcases hrem : remove_run_from_host args
        ⟨fs, A ++ rd :: B, cl, wl, al, pk⟩ rd.number true args.force
        "clean ceph" with ⟨st1, e1⟩
    rw [hrem] at he hshape
    simp only at he hshape
    subst he
    subst hshape
    -- recursive call on the joined state
    have hst2 : wait_on_delete_thread
        (⟨fs', A ++ cur' :: B, cl', wl', al', pk'⟩ : DState) =
        ⟨fs', A ++ cur' :: B, cl', wl', 0, pk'⟩ := rfl
    simp only [hrem, hprod, reduceIte, hst2]
    have hnd2 : (((⟨fs', A ++ cur' :: B, cl', wl', 0, pk'⟩ :
        DState)).reg.map RunDoc.number).Nodup := by
      show ((A ++ cur' :: B).map RunDoc.number).Nodup
      rw [List.map_append, List.map_cons, hn']
      rw [List.map_append, List.map_cons] at hnd
      exact hnd
    have hsafe2 : ∀ r ∈ (⟨fs', A ++ cur' :: B, cl', wl', 0, pk'⟩ :
        DState).reg, cleanCephQuery nowT r = true →
        cephSafe args.force r := by
      intro r hr hq
      rcases List.mem_append.mp hr with hrA | hrC
      · exact hsafe r (List.mem_append.mpr (Or.inl hrA)) hq
      · rcases List.mem_cons.mp hrC with rfl | hrB
        · rw [hnolive] at hq
          exact Bool.noConfusion hq
        · exact hsafe r (List.mem_append.mpr (Or.inr
            (List.mem_cons_of_mem rd hrB))) hq
    have hcount2 : (⟨fs', A ++ cur' :: B, cl', wl', 0, pk'⟩ :
        DState).reg.countP (cleanCephQuery nowT) = n := by
      show (A ++ cur' :: B).countP (cleanCephQuery nowT) = n
      have hA0 : A.countP (cleanCephQuery nowT) = 0 :=
        List.countP_eq_zero.mpr (fun a ha hq => by
          rw [hAq a ha] at hq
          exact Bool.noConfusion hq)
      simp only [List.countP_append, List.countP_cons, hA0, hqrd,
        hnolive] at hcount ⊢
      simp at hcount ⊢
      omega
    have hres := ih args nowT ⟨fs', A ++ cur' :: B, cl', wl', 0, pk'⟩ f
      hprod hac hhost hnd2 hsafe2 hcount2 (by omega)
    refine ⟨?_, hres.2.1, hres.2.2.1, hres.2.2.2⟩
    rw [hres.1]

/-- Dry-run behaviour of `clean_ceph`: the drive evaluates at most the
first match and returns without recursing. -/
theorem clean_ceph_dry_one (args : Args) (nowT : Int) (st : DState)
    (fuel : Nat) (h : args.production = false) :
    (clean_ceph args nowT (fuel + 1) st).finished = true ∧
    (clean_ceph args nowT (fuel + 1) st).deletions ≤ 1 := by
  unfold clean_ceph
  split
  · exact ⟨rfl, Nat.zero_le 1⟩
  · rcases hfind : st.reg.find? (cleanCephQuery nowT) with _ | rd
    · exact ⟨rfl, Nat.zero_le 1⟩
    · rcases hrem : remove_run_from_host args st rd.number true args.force
          "clean ceph" with ⟨st1, e1⟩
      have hnoerr := remove_run_live_noerr args st rd.number args.force
        "clean ceph"
      rw [hrem] at hnoerr
      simp only at hnoerr
      subst hnoerr
      simp only [hrem, h, Bool.false_eq_true, reduceIte]
      refine ⟨?_, ?_⟩
      · trivial
      · exact Nat.le_refl 1

/-- C5 counterexample: a single run matches the shared-tier selection but
has no raw copy registered (and force is not set), so its removal pass
only logs a warning and deletes nothing; real-execution mode then recurses
on the very same run: after three fuel units the drive has driven three
removal passes without terminating, and the registry still matches —
against the claim that exactly N = 1 deletions happen and the re-query
then finds nothing. -/
theorem c5_counterexample :
    ((clean_ceph ⟨true, false, false, true, "eb0.xenon.local"⟩ 0 3
        ⟨[], [⟨1, "done", "transferred", -200000, -50000, "eb1",
          [⟨"live", "daq", "/live_data/xenonnt"⟩], []⟩],
          0, [], 0, 0⟩).finished = false) ∧
    ((clean_ceph ⟨true, false, false, true, "eb0.xenon.local"⟩ 0 3
        ⟨[], [⟨1, "done", "transferred", -200000, -50000, "eb1",
          [⟨"live", "daq", "/live_data/xenonnt"⟩], []⟩],
          0, [], 0, 0⟩).deletions = 3) ∧
    (([⟨1, "done", "transferred", -200000, -50000, "eb1",
        [⟨"live", "daq", "/live_data/xenonnt"⟩], []⟩] :
        List RunDoc).countP (cleanCephQuery 0) = 1) ∧
    ((clean_ceph ⟨true, false, false, true, "eb0.xenon.local"⟩ 0 3
        ⟨[], [⟨1, "done", "transferred", -200000, -50000, "eb1",
          [⟨"live", "daq", "/live_data/xenonnt"⟩], []⟩],
          0, [], 0, 0⟩).st.reg.find? (cleanCephQuery 0) ≠ none) := by
  refine ⟨rfl, rfl, by decide, ?_⟩
  intro hc
  exact Option.noConfusion hc

/-- C5 amended: in real-execution mode, provided every matching run is
well-shaped — its live entries are on the shared host, its shared-host
entries are live data, and it has a raw copy registered (or --force is
set) — and run numbers are unique, confirmations non-interactive, and the
drive runs on the designated host with enough fuel, the recursion performs
exactly N single-run removal passes for the N matching runs and
terminates with the re-query finding nothing; in dry-run mode only the
first match is evaluated and no recursion occurs. -/
theorem c5_ceph_recursion :
    (∀ (n : Nat) (args : Args) (nowT : Int) (st : DState) (fuel : Nat),
      args.production = true → args.ask_confirm = false →
      args.hostname = ebCanCleanCeph →
      (st.reg.map RunDoc.number).Nodup →
      (∀ r ∈ st.reg, cleanCephQuery nowT r = true →
        cephSafe args.force r) →
      st.reg.countP (cleanCephQuery nowT) = n →
      n < fuel →
      (clean_ceph args nowT fuel st).deletions = n ∧
      (clean_ceph args nowT fuel st).finished = true ∧
      (clean_ceph args nowT fuel st).err = none ∧
      (clean_ceph args nowT fuel st).st.reg.find? (cleanCephQuery nowT) =
        none) ∧
    (∀ (args : Args) (nowT : Int) (st : DState) (fuel : Nat),
      args.production = false →
      (clean_ceph args nowT (fuel + 1) st).finished = true ∧
      (clean_ceph args nowT (fuel + 1) st).deletions ≤ 1) := by
  exact ⟨fun n => clean_ceph_real n,
    fun args nowT st fuel h => clean_ceph_dry_one args nowT st fuel h⟩

theorem c5_ceph_recursion_witness :
    ((clean_ceph ⟨true, false, false, true, "eb0.xenon.local"⟩ 0 3
        ⟨[], [⟨11, "done", "transferred", -200000, -50000, "eb1",
          [⟨"live", "daq", "/live_data/xenonnt"⟩,
           ⟨"raw_records", "eb1", "/r11"⟩], []⟩,
          ⟨12, "done", "transferred", -200000, -50000, "eb1",
          [⟨"live", "daq", "/live_data/xenonnt"⟩,
           ⟨"raw_records", "eb1", "/r12"⟩], []⟩],
          0, [], 0, 0⟩).deletions = 2) ∧
    ((clean_ceph ⟨false, false, false, true, "eb0.xenon.local"⟩ 0 4
        ⟨[], [⟨11, "done", "transferred", -200000, -50000, "eb1",
          [⟨"live", "daq", "/live_data/xenonnt"⟩,
           ⟨"raw_records", "eb1", "/r11"⟩], []⟩,
          ⟨12, "done", "transferred", -200000, -50000, "eb1",
          [⟨"live", "daq", "/live_data/xenonnt"⟩,
           ⟨"raw_records", "eb1", "/r12"⟩], []⟩],
          0, [], 0, 0⟩).deletions ≤ 1) := by
  constructor
  · exact (c5_ceph_recursion.1 2 ⟨true, false, false, true,
      "eb0.xenon.local"⟩ 0
      ⟨[], [⟨11, "done", "transferred", -200000, -50000, "eb1",
        [⟨"live", "daq", "/live_data/xenonnt"⟩,
         ⟨"raw_records", "eb1", "/r11"⟩], []⟩,
        ⟨12, "done", "transferred", -200000, -50000, "eb1",
        [⟨"live", "daq", "/live_data/xenonnt"⟩,
         ⟨"raw_records", "eb1", "/r12"⟩], []⟩],
        0, [], 0, 0⟩ 3
      rfl rfl rfl (by decide) (by decide) (by decide) (by decide)).1
  · exact (c5_ceph_recursion.2 ⟨false, false, false, true,
      "eb0.xenon.local"⟩ 0
      ⟨[], [⟨11, "done", "transferred", -200000, -50000, "eb1",
        [⟨"live", "daq", "/live_data/xenonnt"⟩,
         ⟨"raw_records", "eb1", "/r11"⟩], []⟩,
        ⟨12, "done", "transferred", -200000, -50000, "eb1",
        [⟨"live", "daq", "/live_data/xenonnt"⟩,
         ⟨"raw_records", "eb1", "/r12"⟩], []⟩],
        0, [], 0, 0⟩ 3 rfl).2

end Ajax
